import Mathlib

/-!
# pion_demo.go : STUN responder, TURN authentication callback, ICE credential exchange

A shallow embedding of `src/pion_demo.go`.

* Go `string` and `[]byte` values are lists of bytes (`List Nat`, each entry `< 256`).
* Go `error` values are identified by a text.
* The sockets, the standard input and the ICE agent are explicit environments: what each
  call returns is a field of the environment, what the program does to them is recorded in
  a trace.
* The library functions the program calls (`pion/stun`, `encoding/base64`, `strings`) are
  modelled after their Go implementations, at the level of the bytes they read and write.
-/

namespace PionDemo

/-- Go `string` and `[]byte`: a sequence of bytes. -/
abbrev Bytes := List Nat

/-- Go `error`, identified by its text. -/
abbrev GoError := String

/-- All entries are bytes. -/
def isBytes (s : Bytes) : Prop := ∀ b ∈ s, b < 256

instance (s : Bytes) : Decidable (isBytes s) := by
  unfold isBytes; infer_instance

/-! ## net -/

/-- Go `net.UDPAddr` (the zone is not used by the program). -/
structure UDPAddr where
  IP : Bytes
  Port : Nat
deriving DecidableEq, Repr

/-- Go `net.Addr`: the program only ever inspects whether it is a `*net.UDPAddr`. -/
inductive Addr where
  | udp (a : UDPAddr)
  | other (network : String) (text : String)
deriving DecidableEq, Repr

/-- Go `net.IPv4zero`, that is `net.IPv4(0, 0, 0, 0)`: the 16-byte IPv4-mapped form of
`0.0.0.0`. -/
def IPv4zero : Bytes := [0, 0, 0, 0, 0, 0, 0, 0, 0, 0, 0xff, 0xff, 0, 0, 0, 0]

/-- `parseIPPort` of pion_demo.go: the IP and port of a UDP address, `(0.0.0.0, 0)` otherwise. -/
def parseIPPort : Addr → Bytes × Nat
  | .udp u => (u.IP, u.Port)
  | .other _ _ => (IPv4zero, 0)

/-! ## TURN : the authentication callback of `runTurnServer` -/

/-- The `AuthHandler` closure built by `runTurnServer(listen, relay, realm, username, password)`
(lines 159-164). `GenerateAuthKey` is `turn.GenerateAuthKey`, the long-term key derivation of
the TURN library. A `nil` key is `none`. -/
def AuthHandler (GenerateAuthKey : Bytes → Bytes → Bytes → Bytes)
    (realm username password : Bytes)
    (usernameInput _realmInput : Bytes) (_srcAddr : Addr) : Option Bytes × Bool :=
  if usernameInput = username then
    (some (GenerateAuthKey username realm password), true)
  else
    (none, false)

/-! ## encoding/base64 : `StdEncoding` -/

/-- The alphabet `encodeStd` of `encoding/base64`:
`A`-`Z`, `a`-`z`, `0`-`9`, `+`, `/`. -/
def encodeStd : Bytes :=
  [65, 66, 67, 68, 69, 70, 71, 72, 73, 74, 75, 76, 77, 78, 79, 80, 81, 82, 83, 84, 85, 86, 87,
   88, 89, 90,
   97, 98, 99, 100, 101, 102, 103, 104, 105, 106, 107, 108, 109, 110, 111, 112, 113, 114, 115,
   116, 117, 118, 119, 120, 121, 122,
   48, 49, 50, 51, 52, 53, 54, 55, 56, 57, 43, 47]

/-- The padding character `=` of `StdEncoding`. -/
def StdPadding : Nat := 61

/-- The table `enc.encode[i]`. -/
def encodeChar (i : Nat) : Nat := encodeStd.getD i 0

/-- The table `enc.decodeMap[c]`: the index of `c` in the alphabet, `0xff` when it has none. -/
def decodeMap (c : Nat) : Nat :=
  if encodeStd.indexOf c < 64 then encodeStd.indexOf c else 255

/-- `base64.StdEncoding.EncodeToString`: three bytes become four characters, a last group
of one or two bytes is padded with `=`. -/
def EncodeToString : Bytes → Bytes
  | [] => []
  | [a] =>
    let val := a * 65536
    [encodeChar (val / 262144 % 64), encodeChar (val / 4096 % 64), StdPadding, StdPadding]
  | [a, b] =>
    let val := a * 65536 + b * 256
    [encodeChar (val / 262144 % 64), encodeChar (val / 4096 % 64), encodeChar (val / 64 % 64),
      StdPadding]
  | a :: b :: c :: rest =>
    let val := a * 65536 + b * 256 + c
    encodeChar (val / 262144 % 64) :: encodeChar (val / 4096 % 64) ::
      encodeChar (val / 64 % 64) :: encodeChar (val % 64) :: EncodeToString rest

/-- The text of `base64.CorruptInputError`. -/
def CorruptInputError : GoError := "illegal base64 data"

/-- The quantum loop of `base64.StdEncoding.DecodeString` on an input without line breaks:
four characters become three bytes; `=` is accepted only as the last one or two characters
of the last quantum; anything else that is not in the alphabet is an error. -/
def decodeQuanta : Bytes → Except GoError Bytes
  | [] => .ok []
  | a :: b :: c :: d :: rest =>
    let val := decodeMap a * 262144 + decodeMap b * 4096 + decodeMap c * 64 + decodeMap d
    if decodeMap a = 255 ∨ decodeMap b = 255 then .error CorruptInputError
    else if c = StdPadding then
      if d = StdPadding ∧ rest = [] then
        .ok [(decodeMap a * 262144 + decodeMap b * 4096) / 65536 % 256]
      else .error CorruptInputError
    else if decodeMap c = 255 then .error CorruptInputError
    else if d = StdPadding then
      if rest = [] then
        let val3 := decodeMap a * 262144 + decodeMap b * 4096 + decodeMap c * 64
        .ok [val3 / 65536 % 256, val3 / 256 % 256]
      else .error CorruptInputError
    else if decodeMap d = 255 then .error CorruptInputError
    else
      match decodeQuanta rest with
      | .ok out => .ok (val / 65536 % 256 :: val / 256 % 256 :: val % 256 :: out)
      | .error e => .error e
  | _ => .error CorruptInputError

/-- `base64.StdEncoding.DecodeString`: carriage returns and line feeds are skipped, the
rest is decoded quantum by quantum. -/
def DecodeString (s : Bytes) : Except GoError Bytes :=
  decodeQuanta (s.filter (fun c => c ≠ 10 ∧ c ≠ 13))

/-! ## strings -/

/-- `strings.Index(s, sep)`: the position of the first occurrence of `sep` in `s`
(`none` for Go's `-1`). -/
def Index : Bytes → Bytes → Option Nat
  | [], sep => if sep = [] then some 0 else none
  | c :: s, sep =>
    if sep.isPrefixOf (c :: s) then some 0
    else (Index s sep).map (· + 1)

/-- `strings.Count(s, sep)` for a non-empty `sep`: the number of non-overlapping
occurrences. The fuel bounds the number of searches by the length of `s`. -/
def countFrom (sep : Bytes) : Nat → Bytes → Nat
  | 0, _ => 0
  | fuel + 1, s =>
    match Index s sep with
    | none => 0
    | some m => 1 + countFrom sep fuel (s.drop (m + sep.length))

/-- The loop of `strings.genSplit`: at most `k` further cuts. -/
def genSplitLoop (sep : Bytes) (sepSave : Nat) : Nat → Bytes → List Bytes
  | 0, s => [s]
  | k + 1, s =>
    match Index s sep with
    | none => [s]
    | some m => s.take (m + sepSave) :: genSplitLoop sep sepSave k (s.drop (m + sep.length))

/-- `strings.genSplit(s, sep, sepSave, n)`. The case of an empty separator is
`strings.explode`, which cuts `s` into UTF-8 sequences; it is a parameter. -/
def genSplit (explode : Bytes → Int → List Bytes) (s sep : Bytes) (sepSave : Nat) (n : Int) :
    List Bytes :=
  if n = 0 then []
  else if sep = [] then explode s n
  else
    let n1 : Int := if n < 0 then (countFrom sep s.length s : Int) + 1 else n
    let n2 : Int := if n1 > (s.length : Int) + 1 then (s.length : Int) + 1 else n1
    genSplitLoop sep sepSave (n2 - 1).toNat s

/-- `strings.SplitN(s, sep, n)`. -/
def SplitN (explode : Bytes → Int → List Bytes) (s sep : Bytes) (n : Int) : List Bytes :=
  genSplit explode s sep 0 n

/-! ## ICE : `runIceDemo` -/

/-- How a run of a function of the program ends. -/
inductive Outcome where
  /-- The function returned this error to its caller. -/
  | returned (err : GoError)
  /-- A run-time panic (index out of range, failed type assertion, `MustBuild`). -/
  | panicked
  /-- The function is blocked: in `select {}`, or in a read with no datagram left. -/
  | blocked
deriving DecidableEq, Repr

/-- The token printed by the controlling side (lines 222-223):
`base64(fmt.Sprintf("%s:%s", ufrag, pwd))`. -/
def offerToken (ufrag pwd : Bytes) : Bytes :=
  EncodeToString (ufrag ++ [58] ++ pwd)

/-- The alphabet `runesAlpha` of pion/ice: the letters `a`-`z` and `A`-`Z`. -/
def isAlpha (b : Nat) : Prop := (97 ≤ b ∧ b ≤ 122) ∨ (65 ≤ b ∧ b ≤ 90)

instance (b : Nat) : Decidable (isAlpha b) := by
  unfold isAlpha; infer_instance

/-- A local credential as `agent.GetLocalUserCredentials()` returns it (line 215): the
`AgentConfig` of lines 203-206 sets neither `LocalUfrag` nor `LocalPwd`, so pion/ice generates
both as random strings over `runesAlpha` (16 letters for the ufrag, 32 for the pwd). -/
def isGeneratedCredential (s : Bytes) : Prop := ∀ b ∈ s, isAlpha b

instance (s : Bytes) : Decidable (isGeneratedCredential s) := by
  unfold isGeneratedCredential; infer_instance

/-- The result of parsing the peer's token (lines 234-239). -/
inductive Parsed where
  /-- `base64.StdEncoding.DecodeString` failed: `runIceDemo` returns the error. -/
  | decodeError (err : GoError)
  /-- `parts[i]` is out of range: a run-time panic. -/
  | indexOutOfRange
  /-- The pair `remoteUfrag, remotePwd`. -/
  | creds (remoteUfrag remotePwd : Bytes)
deriving DecidableEq, Repr

/-- Lines 234-239 of `runIceDemo`: base64-decode the secret, split the decoded text into at
most two parts at `:`, and take `parts[0]`, `parts[1]`. -/
def parseSecret (explode : Bytes → Int → List Bytes) (secret : Bytes) : Parsed :=
  match DecodeString secret with
  | .error err => .decodeError err
  | .ok dec =>
    let parts := SplitN explode dec [58] 2
    match parts[0]?, parts[1]? with
    | some remoteUfrag, some remotePwd => .creds remoteUfrag remotePwd
    | _, _ => .indexOutOfRange

/-- One bit of the reflected CRC-32 division by the IEEE polynomial `0xedb88320`. -/
def crc32Bit (crc : Nat) : Nat :=
  if crc % 2 = 1 then (crc / 2) ^^^ 0xedb88320 else crc / 2

/-- One byte of input of the CRC-32. -/
def crc32Byte (crc b : Nat) : Nat :=
  crc32Bit (crc32Bit (crc32Bit (crc32Bit (crc32Bit (crc32Bit (crc32Bit (crc32Bit
    (crc ^^^ (b % 256)))))))))

/-- `crc32.ChecksumIEEE`: the IEEE CRC-32 of the data, a `uint32`. -/
def ChecksumIEEE (data : Bytes) : Nat :=
  ((data.foldl crc32Byte 0xffffffff) ^^^ 0xffffffff) % 4294967296

/-! ## pion/stun : messages on the wire -/

def magicCookie : Nat := 0x2112A442

def attributeHeaderSize : Nat := 4

def messageHeaderSize : Nat := 20

def TransactionIDSize : Nat := 12

/-- `stun.MethodBinding`. -/
def MethodBinding : Nat := 0x001

/-- `stun.ClassRequest`. -/
def ClassRequest : Nat := 0x00

/-- `stun.ClassIndication`. -/
def ClassIndication : Nat := 0x01

/-- `stun.ClassSuccessResponse`. -/
def ClassSuccessResponse : Nat := 0x02

/-- `stun.ClassErrorResponse`. -/
def ClassErrorResponse : Nat := 0x03

/-- `stun.AttrXORMappedAddress`. -/
def AttrXORMappedAddress : Nat := 0x0020

/-- `stun.AttrFingerprint`. -/
def AttrFingerprint : Nat := 0x8028

/-- `stun.MessageType`: a method (`uint16`) and a class (`byte`). -/
structure MessageType where
  Method : Nat
  Class : Nat
deriving DecidableEq, Repr

/-- `stun.BindingSuccess`. -/
def BindingSuccess : MessageType := ⟨MethodBinding, ClassSuccessResponse⟩

/-- `stun.RawAttribute`; `Typ` is the field `Type`. -/
structure RawAttribute where
  Typ : Nat
  Length : Nat
  Value : Bytes
deriving DecidableEq, Repr

/-- `stun.Message`; `Typ` is the field `Type`, `TransactionID` is Go's `[12]byte`. -/
structure Message where
  Typ : MessageType
  Length : Nat
  TransactionID : Bytes
  Attributes : List RawAttribute
  Raw : Bytes
deriving DecidableEq, Repr

/-- Go's `new(stun.Message)`: the zero message. -/
def newMessage : Message :=
  { Typ := ⟨0, 0⟩, Length := 0, TransactionID := List.replicate 12 0, Attributes := [],
    Raw := [] }

/-- `binary.BigEndian.PutUint16`, as the two bytes written. -/
def PutUint16 (v : Nat) : Bytes := [v / 256 % 256, v % 256]

/-- `binary.BigEndian.PutUint32`, as the four bytes written. -/
def PutUint32 (v : Nat) : Bytes := [v / 16777216 % 256, v / 65536 % 256, v / 256 % 256, v % 256]

/-- `binary.BigEndian.Uint16`. -/
def Uint16 (b : Bytes) : Nat := b.getD 0 0 * 256 + b.getD 1 0

/-- `binary.BigEndian.Uint32`. -/
def Uint32 (b : Bytes) : Nat :=
  b.getD 0 0 * 16777216 + b.getD 1 0 * 65536 + b.getD 2 0 * 256 + b.getD 3 0

/-- Go's `b[lo:hi]`. -/
def slice (b : Bytes) (lo hi : Nat) : Bytes := (b.take hi).drop lo

/-- Go's `copy(raw[lo:hi], src)`: the buffer after the copy. -/
def copyAt (raw : Bytes) (lo hi : Nat) (src : Bytes) : Bytes :=
  let n := min (hi - lo) src.length
  raw.take lo ++ src.take n ++ raw.drop (lo + n)

/-- `MessageType.Value`: the 14 bits of a message type, method and class interleaved. -/
def MessageType.Value (t : MessageType) : Nat :=
  let m := t.Method % 65536
  let a := m &&& 0xf
  let b := m &&& 0x70
  let d := m &&& 0xf80
  let m := (a + (b <<< 1) + (d <<< 2)) % 65536
  let c := t.Class % 256
  let c0 := (c &&& 0x1) <<< 4
  let c1 := (c &&& 0x2) <<< 7
  (m + (c0 + c1)) % 65536

/-- `MessageType.ReadValue`: the method and class of the first two bytes of a message. -/
def MessageType.ReadValue (v : Nat) : MessageType :=
  let c0 := (v >>> 4) &&& 0x1
  let c1 := (v >>> 7) &&& 0x2
  let a := v &&& 0xf
  let b := (v >>> 1) &&& 0x70
  let d := (v >>> 2) &&& 0xf80
  { Method := a + b + d, Class := c0 + c1 }

/-- `Message.grow(n)`: the buffer has at least `n` bytes afterwards. -/
def grow (raw : Bytes) (n : Nat) : Bytes :=
  if raw.length ≥ n then raw else raw ++ List.replicate (n - raw.length) 0

/-- `Message.WriteType`. -/
def Message.WriteType (m : Message) : Message :=
  { m with Raw := copyAt (grow m.Raw 2) 0 2 (PutUint16 m.Typ.Value) }

/-- `Message.WriteLength`. -/
def Message.WriteLength (m : Message) : Message :=
  { m with Raw := copyAt (grow m.Raw 4) 2 4 (PutUint16 (m.Length % 65536)) }

/-- `Message.WriteTransactionID`. -/
def Message.WriteTransactionID (m : Message) : Message :=
  { m with Raw := copyAt m.Raw 8 messageHeaderSize m.TransactionID }

/-- `Message.WriteHeader`. -/
def Message.WriteHeader (m : Message) : Message :=
  let m1 := { m with Raw := grow m.Raw messageHeaderSize }
  let m2 := m1.WriteType
  let m3 := m2.WriteLength
  let m4 := { m3 with Raw := copyAt m3.Raw 4 8 (PutUint32 magicCookie) }
  { m4 with Raw := copyAt m4.Raw 8 messageHeaderSize m4.TransactionID }

/-- `Message.SetType`. -/
def Message.SetType (m : Message) (t : MessageType) : Message :=
  ({ m with Typ := t }).WriteType

/-- `Message.Reset`. -/
def Message.Reset (m : Message) : Message :=
  { m with Raw := [], Length := 0, Attributes := [] }

/-- `nearestPaddedValueLength`: the next multiple of 4. -/
def nearestPaddedValueLength (l : Nat) : Nat :=
  let n := 4 * (l / 4)
  if n < l then n + 4 else n

/-- `Message.Add(t, v)`: appends the attribute as type, length, value and zero padding to a
multiple of 4, and rewrites the length field of the header. -/
def Message.Add (m : Message) (t : Nat) (v : Bytes) : Message :=
  let allocSize := attributeHeaderSize + v.length
  let first := messageHeaderSize + m.Length
  let last := first + allocSize
  let raw1 := (grow m.Raw last).take last
  let length1 := (m.Length + allocSize) % 4294967296
  let attr : RawAttribute := { Typ := t, Length := v.length % 65536, Value := v }
  let raw2 := copyAt raw1 first last (PutUint16 attr.Typ ++ PutUint16 attr.Length ++ v)
  let (raw3, length3) : Bytes × Nat :=
    if attr.Length % 4 ≠ 0 then
      let bytesToAdd := nearestPaddedValueLength v.length - v.length
      let last2 := last + bytesToAdd
      let grown := grow raw2 last2
      ((copyAt grown (last2 - bytesToAdd) last2 (List.replicate bytesToAdd 0)).take last2,
        (length1 + bytesToAdd) % 4294967296)
    else (raw2, length1)
  ({ m with Raw := raw3, Length := length3, Attributes := m.Attributes ++ [attr] }).WriteLength

/-- A `stun.Setter`: `AddTo(m)` as the message afterwards, or an error. -/
abbrev Setter := Message → Except GoError Message

/-- `(*Message).AddTo`: the setter that copies the transaction id of `m`. -/
def Message.AddTo (m : Message) : Setter := fun b =>
  .ok ({ b with TransactionID := m.TransactionID }).WriteTransactionID

/-- `MessageType.AddTo`. -/
def MessageType.AddTo (t : MessageType) : Setter := fun m => .ok (m.SetType t)

/-- `stun.XORMappedAddress`. -/
structure XORMappedAddress where
  IP : Bytes
  Port : Nat
deriving DecidableEq, Repr

def familyIPv4 : Nat := 0x01

def familyIPv6 : Nat := 0x02

def ErrBadIPLength : GoError := "invalid length of IP value"

def isZeros (b : Bytes) : Bool := b.all (· == 0)

/-- The `isIPv4` of pion/stun: a 16-byte address with the prefix of an IPv4-mapped one. -/
def isIPv4 (ip : Bytes) : Bool :=
  isZeros (slice ip 0 10) && ip.getD 10 0 == 0xff && ip.getD 11 0 == 0xff

/-- The `xorBytes(dst, a, b)` of pion/stun: the bytes written to `dst`. -/
def xorBytes (a b : Bytes) : Bytes := List.zipWith (· ^^^ ·) a b

/-- `XORMappedAddress.AddToAs(m, t)`. -/
def XORMappedAddress.AddToAs (a : XORMappedAddress) (t : Nat) : Setter := fun m =>
  let chosen : Except GoError (Nat × Bytes) :=
    if a.IP.length = 16 then
      if isIPv4 a.IP then .ok (familyIPv4, slice a.IP 12 16) else .ok (familyIPv6, a.IP)
    else if a.IP.length ≠ 4 then .error ErrBadIPLength
    else .ok (familyIPv4, a.IP)
  match chosen with
  | .error err => .error err
  | .ok (family, ip) =>
    let xorValue := PutUint32 magicCookie ++ m.TransactionID
    let value := PutUint16 family ++ PutUint16 ((a.Port ^^^ (magicCookie >>> 16)) % 65536) ++
      xorBytes ip xorValue
    .ok (m.Add t value)

/-- `XORMappedAddress.AddTo`. -/
def XORMappedAddress.AddTo (a : XORMappedAddress) : Setter :=
  a.AddToAs AttrXORMappedAddress

def fingerprintXORValue : Nat := 0x5354554e

def fingerprintSize : Nat := 4

/-- `stun.FingerprintValue`. -/
def FingerprintValue (b : Bytes) : Nat := (ChecksumIEEE b ^^^ fingerprintXORValue) % 4294967296

/-- `FingerprintAttr.AddTo`: the CRC is taken over the message so far, with the length
field already counting the fingerprint attribute. -/
def Fingerprint.AddTo : Setter := fun m =>
  let l := m.Length
  let m1 := ({ m with
    Length := (m.Length + (attributeHeaderSize + fingerprintSize)) % 4294967296 }).WriteLength
  let b := PutUint32 (FingerprintValue m1.Raw)
  .ok (({ m1 with Length := l }).Add AttrFingerprint b)

/-- `stun.Build`: the setters applied in order to a fresh message. -/
def Build (setters : List Setter) : Except GoError Message :=
  setters.foldlM (fun m s => s m) (newMessage.Reset).WriteHeader

def ErrUnexpectedHeaderEOF : GoError := "unexpected EOF: not enough bytes to read header"

def ErrAttributeNotFound : GoError := "attribute not found"

/-- The `compatAttrType` of pion/stun. -/
def compatAttrType (val : Nat) : Nat := if val = 0x8020 then AttrXORMappedAddress else val

/-- The attribute loop of `Message.Decode`: `b` is what is left of the attribute bytes. Every
turn consumes at least the 4 bytes of an attribute header, so `size` turns are enough. -/
def decodeAttrs (size : Nat) : Nat → Nat → Bytes → List RawAttribute →
    Except GoError (List RawAttribute)
  | fuel, offset, b, attrs =>
    if offset < size then
      match fuel with
      | 0 => .error "unreachable"
      | fuel + 1 =>
        if b.length < attributeHeaderSize then .error "attribute header: buffer too short"
        else
          let aType := compatAttrType (Uint16 (slice b 0 2))
          let aLength := Uint16 (slice b 2 4)
          let aBuffL := nearestPaddedValueLength aLength
          let b1 := b.drop attributeHeaderSize
          if b1.length < aBuffL then .error "attribute value: buffer too short"
          else
            decodeAttrs size fuel (offset + attributeHeaderSize + aBuffL) (b1.drop aBuffL)
              (attrs ++ [{ Typ := aType, Length := aLength, Value := b1.take aLength }])
    else .ok attrs

/-- `Message.Decode`: decodes `m.Raw` into `m`. -/
def Message.Decode (m : Message) : Except GoError Message :=
  let buf := m.Raw
  if buf.length < messageHeaderSize then .error ErrUnexpectedHeaderEOF
  else
    let t := Uint16 (slice buf 0 2)
    let size := Uint16 (slice buf 2 4)
    let cookie := Uint32 (slice buf 4 8)
    let fullSize := messageHeaderSize + size
    if cookie ≠ magicCookie then .error "invalid magic cookie"
    else if buf.length < fullSize then .error "buffer length is less than message size"
    else
      match decodeAttrs size size 0 (slice buf messageHeaderSize fullSize) [] with
      | .error err => .error err
      | .ok attrs =>
        .ok { m with
          Typ := MessageType.ReadValue t, Length := size,
          TransactionID := slice buf 8 messageHeaderSize, Attributes := attrs }

/-- `Message.Get(t)`: the value of the first attribute of type `t`. -/
def Message.Get (m : Message) (t : Nat) : Except GoError Bytes :=
  match m.Attributes.find? (fun a => a.Typ == t) with
  | some a => .ok a.Value
  | none => .error ErrAttributeNotFound

/-- `XORMappedAddress.GetFromAs(m, t)`: the address carried by the attribute of type `t`. -/
def XORMappedAddress.GetFromAs (m : Message) (t : Nat) : Except GoError XORMappedAddress :=
  match m.Get t with
  | .error err => .error err
  | .ok v =>
    let family := Uint16 (slice v 0 2)
    if family ≠ familyIPv6 ∧ family ≠ familyIPv4 then .error "xor-mapped address: bad family"
    else
      let ipLen := if family = familyIPv6 then 16 else 4
      if v.length ≤ 4 then .error "unexpected EOF"
      else if (v.drop 4).length > ipLen then .error "attribute overflow"
      else
        let port := Uint16 (slice v 2 4) ^^^ (magicCookie >>> 16)
        let xorValue := PutUint32 magicCookie ++ m.TransactionID
        let x := xorBytes (v.drop 4) xorValue
        .ok { IP := x ++ List.replicate (ipLen - x.length) 0, Port := port }

/-- `XORMappedAddress.GetFrom`. -/
def XORMappedAddress.GetFrom (m : Message) : Except GoError XORMappedAddress :=
  XORMappedAddress.GetFromAs m AttrXORMappedAddress

/-- `FingerprintAttr.Check`: `none` when the fingerprint attribute of `m` holds the CRC of
the bytes before it. -/
def Fingerprint.Check (m : Message) : Option GoError :=
  match m.Get AttrFingerprint with
  | .error err => some err
  | .ok b =>
    if b.length ≠ fingerprintSize then some "attribute size is invalid"
    else
      let val := Uint32 b
      let attrStart := m.Raw.length - (fingerprintSize + attributeHeaderSize)
      let expected := FingerprintValue (m.Raw.take attrStart)
      if val = expected then none else some "fingerprint check failed"

/-- Go's `net.IP.Equal`: the same address, an IPv4 address being equal to its 16-byte
IPv4-mapped form. -/
def IPEqual (ip x : Bytes) : Bool :=
  let v4InV6Prefix : Bytes := [0, 0, 0, 0, 0, 0, 0, 0, 0, 0, 0xff, 0xff]
  if ip.length = x.length then ip == x
  else if ip.length = 4 ∧ x.length = 16 then slice x 0 12 == v4InV6Prefix && ip == x.drop 12
  else if ip.length = 16 ∧ x.length = 4 then slice ip 0 12 == v4InV6Prefix && ip.drop 12 == x
  else false

/-- The datagram `p` is a Binding Success response of the transaction `tid` that reports the
address `(ip, port)`: it decodes as a message of type Binding Success with that transaction
id, its attributes are an XOR-MAPPED-ADDRESS followed by a FINGERPRINT, the address read from
the XOR-MAPPED-ADDRESS is `(ip, port)`, and the fingerprint is the one of the bytes before
it. -/
def isBindingSuccessFor (p tid ip : Bytes) (port : Nat) : Prop :=
  ∃ m a, ({ newMessage with Raw := p } : Message).Decode = .ok m ∧
    m.Typ = BindingSuccess ∧ m.TransactionID = tid ∧
    m.Attributes.map (fun x => x.Typ) = [AttrXORMappedAddress, AttrFingerprint] ∧
    XORMappedAddress.GetFrom m = .ok a ∧ IPEqual a.IP ip = true ∧ a.Port = port ∧
    Fingerprint.Check m = none

/-! ## STUN : `runStunServer` -/

/-- What one call of `conn.ReadFrom(buf)` delivers: a datagram and its source, or an error. -/
inductive ReadResult where
  | datagram (payload : Bytes) (raddr : Addr)
  | failed (err : GoError)
deriving DecidableEq, Repr

/-- The listening socket as the program sees it: the results of the successive calls of
`ReadFrom` (after the last one the call blocks), and the result of the `k`-th call of
`WriteTo` (`none` is a `nil` error). -/
structure PacketConn where
  LocalAddr : String
  reads : List ReadResult
  WriteTo : Nat → Bytes → Addr → Option GoError

/-- The lines `runStunServer` logs. -/
inductive StunLog where
  | listening (laddr : String)
  | nonStun (raddr : Addr) (err : GoError)
  | sendError (err : GoError)
deriving DecidableEq, Repr

/-- A run of `runStunServer`: the calls of `WriteTo` made (payload and destination), the
lines logged, and how the run ended. -/
structure StunRun where
  sent : List (Bytes × Addr)
  logs : List StunLog
  outcome : Outcome
deriving DecidableEq, Repr

/-- One turn of the `for` loop of `runStunServer` (lines 110-134), on the result `r` of
`conn.ReadFrom(buf)`; `WriteTo` is `conn.WriteTo`, `sent` and `logs` are the calls of `WriteTo`
and the lines logged so far. The result is `.ok` with the new `sent` and `logs` when the loop
goes on to the next turn, and `.error` with the finished run when the function returns or
panics. The buffer has 1500 bytes, so `buf[:n]` is at most the first 1500 bytes of the
datagram. -/
def stunTurn (WriteTo : Nat → Bytes → Addr → Option GoError) (r : ReadResult)
    (sent : List (Bytes × Addr)) (logs : List StunLog) :
    Except StunRun (List (Bytes × Addr) × List StunLog) :=
  match r with
  | .failed err => .error ⟨sent, logs, .returned err⟩
  | .datagram payload raddr =>
    match ({ newMessage with Raw := payload.take 1500 }).Decode with
    | .error err => .ok (sent, logs ++ [.nonStun raddr err])
    | .ok msg =>
      if msg.Typ.Method ≠ MethodBinding ∨ msg.Typ.Class ≠ ClassRequest then .ok (sent, logs)
      else
        match raddr with
        | .other _ _ => .error ⟨sent, logs, .panicked⟩
        | .udp u =>
          match Build [msg.AddTo, BindingSuccess.AddTo,
              (XORMappedAddress.mk u.IP u.Port).AddTo, Fingerprint.AddTo] with
          | .error _ => .error ⟨sent, logs, .panicked⟩
          | .ok resp =>
            match WriteTo sent.length resp.Raw raddr with
            | some err => .ok (sent ++ [(resp.Raw, raddr)], logs ++ [.sendError err])
            | none => .ok (sent ++ [(resp.Raw, raddr)], logs)

/-- The `for` loop of `runStunServer` (lines 109-135), over the results of `ReadFrom` still
to come. When there is none left, the loop is blocked in `ReadFrom`. -/
def stunLoop (WriteTo : Nat → Bytes → Addr → Option GoError) :
    List ReadResult → List (Bytes × Addr) → List StunLog → StunRun
  | [], sent, logs => ⟨sent, logs, .blocked⟩
  | r :: rest, sent, logs =>
    match stunTurn WriteTo r sent logs with
    | .error run => run
    | .ok (sent1, logs1) => stunLoop WriteTo rest sent1 logs1

/-- The function `runStunServer(addr)` of pion_demo.go; `ListenPacket` is `net.ListenPacket`. -/
def runStunServer (ListenPacket : String → String → Except GoError PacketConn) (addr : String) :
    StunRun :=
  match ListenPacket "udp" addr with
  | .error err => ⟨[], [], .returned err⟩
  | .ok conn => stunLoop conn.WriteTo conn.reads [] [.listening conn.LocalAddr]

/-- A `net.ListenPacket` that succeeds with the socket `conn`, on which `reads` are the
results of `ReadFrom`. -/
def listenOn (conn : PacketConn) (reads : List ReadResult) :
    String → String → Except GoError PacketConn :=
  fun _ _ => .ok { conn with reads := reads }

/-- The first error among the results of `ReadFrom`. -/
def firstReadError : List ReadResult → Option GoError
  | [] => none
  | .failed err :: _ => some err
  | .datagram _ _ :: rest => firstReadError rest

/-- A source address as a UDP socket reports it: a `*net.UDPAddr` whose IP has 4 or 16
bytes. -/
def udpSource : Addr → Prop
  | .udp u => u.IP.length = 4 ∨ u.IP.length = 16
  | .other _ _ => False

/-- Every datagram among the results of `ReadFrom` has a UDP source. -/
def udpSources : List ReadResult → Prop
  | [] => True
  | .failed _ :: rest => udpSources rest
  | .datagram _ raddr :: rest => udpSource raddr ∧ udpSources rest

/-! ## Sample inputs -/

/-- A socket on which every `WriteTo` succeeds. -/
def sampleConn : PacketConn :=
  { LocalAddr := "[::]:3478", reads := [], WriteTo := fun _ _ _ => none }

/-- A socket on which every `WriteTo` fails. -/
def brokenConn : PacketConn :=
  { LocalAddr := "[::]:3478", reads := [], WriteTo := fun _ _ _ => some "network is unreachable" }

/-- A Binding Request without attributes, transaction id `1, 2, ..., 12`. -/
def sampleRequest : Bytes :=
  [0, 1, 0, 0, 0x21, 0x12, 0xa4, 0x42, 1, 2, 3, 4, 5, 6, 7, 8, 9, 10, 11, 12]

/-- The decoded form of `sampleRequest`. -/
def sampleRequestMessage : Message :=
  { Typ := ⟨MethodBinding, ClassRequest⟩, Length := 0,
    TransactionID := [1, 2, 3, 4, 5, 6, 7, 8, 9, 10, 11, 12], Attributes := [],
    Raw := sampleRequest }

/-- A Binding Indication without attributes, transaction id `1, 2, ..., 12`. -/
def sampleIndication : Bytes :=
  [0, 0x11, 0, 0, 0x21, 0x12, 0xa4, 0x42, 1, 2, 3, 4, 5, 6, 7, 8, 9, 10, 11, 12]

/-- The decoded form of `sampleIndication`. -/
def sampleIndicationMessage : Message :=
  { Typ := ⟨MethodBinding, ClassIndication⟩, Length := 0,
    TransactionID := [1, 2, 3, 4, 5, 6, 7, 8, 9, 10, 11, 12], Attributes := [],
    Raw := sampleIndication }

/-- The source `192.168.1.2:5000`. -/
def sampleSource : Addr := .udp ⟨[192, 168, 1, 2], 5000⟩

/-- A local ufrag: the 16 letters `abcdefghijklmnop`. -/
def sampleUfrag : Bytes :=
  [97, 98, 99, 100, 101, 102, 103, 104, 105, 106, 107, 108, 109, 110, 111, 112]

/-- A local pwd: the 32 letters `ABCDEFGHIJKLMNOPQRSTUVWXYZabcdef`. -/
def samplePwd : Bytes :=
  [65, 66, 67, 68, 69, 70, 71, 72, 73, 74, 75, 76, 77, 78, 79, 80, 81, 82, 83, 84, 85, 86, 87,
   88, 89, 90, 97, 98, 99, 100, 101, 102]

/-- A stand-in for `turn.GenerateAuthKey`: the text `username:realm:password` that the
library hashes. -/
def sampleGenerateAuthKey (username realm password : Bytes) : Bytes :=
  username ++ [58] ++ realm ++ [58] ++ password

/-! # Theorems -/

/-! ## base64 decodes what it encodes -/

theorem encodeChar_facts : ∀ i, i < 64 →
    decodeMap (encodeChar i) = i ∧ encodeChar i ≠ 61 ∧ encodeChar i ≠ 10 ∧ encodeChar i ≠ 13 := by
  decide

theorem decodeMap_encodeChar {i : Nat} (h : i < 64) : decodeMap (encodeChar i) = i :=
  (encodeChar_facts i h).1

theorem encodeChar_ne_pad {i : Nat} (h : i < 64) : encodeChar i ≠ 61 :=
  (encodeChar_facts i h).2.1

theorem decodeQuanta_quad (a b c d : Nat) (rest : Bytes) :
    decodeQuanta (a :: b :: c :: d :: rest) =
      if decodeMap a = 255 ∨ decodeMap b = 255 then .error CorruptInputError
      else if c = StdPadding then
        if d = StdPadding ∧ rest = [] then
          .ok [(decodeMap a * 262144 + decodeMap b * 4096) / 65536 % 256]
        else .error CorruptInputError
      else if decodeMap c = 255 then .error CorruptInputError
      else if d = StdPadding then
        if rest = [] then
          .ok [(decodeMap a * 262144 + decodeMap b * 4096 + decodeMap c * 64) / 65536 % 256,
            (decodeMap a * 262144 + decodeMap b * 4096 + decodeMap c * 64) / 256 % 256]
        else .error CorruptInputError
      else if decodeMap d = 255 then .error CorruptInputError
      else
        match decodeQuanta rest with
        | .ok out =>
          .ok ((decodeMap a * 262144 + decodeMap b * 4096 + decodeMap c * 64 + decodeMap d)
                / 65536 % 256 ::
              (decodeMap a * 262144 + decodeMap b * 4096 + decodeMap c * 64 + decodeMap d)
                / 256 % 256 ::
              (decodeMap a * 262144 + decodeMap b * 4096 + decodeMap c * 64 + decodeMap d)
                % 256 :: out)
        | .error e => .error e := by
  rw [decodeQuanta]

theorem decodeQuanta_EncodeToString : ∀ (n : Nat) (s : Bytes), s.length ≤ n → isBytes s →
    decodeQuanta (EncodeToString s) = .ok s := by
  intro n
  induction n using Nat.strong_induction_on with
  | _ n ih =>
    intro s hn hs
    match s, hn, hs with
    | [], _, _ => simp [EncodeToString, decodeQuanta]
    | [a], _, hs =>
      have ha : a < 256 := hs a (by simp)
      have h0 : a * 65536 / 262144 % 64 < 64 := by omega
      have h1 : a * 65536 / 4096 % 64 < 64 := by omega
      simp only [EncodeToString, decodeQuanta_quad, decodeMap_encodeChar h0,
        decodeMap_encodeChar h1, StdPadding]
      rw [if_neg (by omega)]
      simp only [if_true, and_self]
      congr 2
      omega
    | [a, b], _, hs =>
      have ha : a < 256 := hs a (by simp)
      have hb : b < 256 := hs b (by simp)
      have h0 : (a * 65536 + b * 256) / 262144 % 64 < 64 := by omega
      have h1 : (a * 65536 + b * 256) / 4096 % 64 < 64 := by omega
      have h2 : (a * 65536 + b * 256) / 64 % 64 < 64 := by omega
      simp only [EncodeToString, decodeQuanta_quad, decodeMap_encodeChar h0,
        decodeMap_encodeChar h1, decodeMap_encodeChar h2, StdPadding]
      rw [if_neg (by omega), if_neg (encodeChar_ne_pad h2), if_neg (by omega)]
      simp only [if_true]
      congr 2
      · omega
      · congr 1; omega
    | a :: b :: c :: rest, hn, hs =>
      have ha : a < 256 := hs a (by simp)
      have hb : b < 256 := hs b (by simp)
      have hc : c < 256 := hs c (by simp)
      have hrest : isBytes rest := fun x hx => hs x (by simp [hx])
      have h0 : (a * 65536 + b * 256 + c) / 262144 % 64 < 64 := by omega
      have h1 : (a * 65536 + b * 256 + c) / 4096 % 64 < 64 := by omega
      have h2 : (a * 65536 + b * 256 + c) / 64 % 64 < 64 := by omega
      have h3 : (a * 65536 + b * 256 + c) % 64 < 64 := by omega
      have hlen : rest.length ≤ n - 1 := by simp at hn; omega
      have hrec := ih (n - 1) (by simp at hn; omega) rest hlen hrest
      simp only [EncodeToString, decodeQuanta_quad, decodeMap_encodeChar h0,
        decodeMap_encodeChar h1, decodeMap_encodeChar h2, decodeMap_encodeChar h3, StdPadding,
        hrec]
      rw [if_neg (by omega), if_neg (encodeChar_ne_pad h2), if_neg (by omega),
        if_neg (encodeChar_ne_pad h3), if_neg (by omega)]
      congr 2
      · omega
      · congr 1
        · omega
        · congr 1; omega

/-! ## Splitting at the first colon -/

theorem Index_single_cons (c x : Nat) (s : Bytes) :
    Index (x :: s) [c] = if c = x then some 0 else (Index s [c]).map (· + 1) := by
  simp [Index, List.isPrefixOf]

theorem Index_single_none (c : Nat) : ∀ s : Bytes, Index s [c] = none ↔ c ∉ s
  | [] => by simp [Index]
  | x :: s => by
    rw [Index_single_cons]
    by_cases h : c = x
    · simp [h]
    · simp [h, Index_single_none c s]

theorem Index_single_some (c : Nat) : ∀ (s : Bytes) (m : Nat), Index s [c] = some m →
    c ∉ s.take m ∧ s.take m ++ c :: s.drop (m + 1) = s
  | [], m => by simp [Index]
  | x :: s, m => by
    rw [Index_single_cons]
    by_cases h : c = x
    · simp only [h, if_true, Option.some.injEq]
      intro hm
      subst hm
      simp
    · simp only [h, if_false, Option.map_eq_some']
      rintro ⟨k, hk, rfl⟩
      have := Index_single_some c s k hk
      simp only [List.take_succ_cons, List.mem_cons, not_or, List.drop_succ_cons,
        List.cons_append, List.cons.injEq, true_and]
      exact ⟨⟨h, this.1⟩, this.2⟩

theorem Index_single_append (c : Nat) (p : Bytes) : ∀ (u : Bytes), c ∉ u →
    Index (u ++ c :: p) [c] = some u.length
  | [], _ => by simp [Index_single_cons]
  | x :: u, h => by
    simp only [List.mem_cons, not_or] at h
    simp [Index_single_cons, h.1, Index_single_append c p u h.2]

theorem SplitN_colon (explode : Bytes → Int → List Bytes) (s : Bytes) :
    SplitN explode s [58] 2 =
      match Index s [58] with
      | none => [s]
      | some m => [s.take m, s.drop (m + 1)] := by
  cases s with
  | nil => simp [SplitN, genSplit, genSplitLoop, Index]
  | cons x s =>
    have h : ¬ ((2 : Int) > ((x :: s).length : Int) + 1) := by
      simp only [List.length_cons]; omega
    have h2 : ¬ ((2 : Int) < 0) := by decide
    simp only [SplitN, genSplit]
    rw [if_neg (by decide), if_neg (by simp)]
    simp only [if_neg h2, if_neg h]
    show genSplitLoop [58] 0 1 (x :: s) = _
    simp only [genSplitLoop]
    cases Index (x :: s) [58] <;> simp

/-! ## pion/stun : building the response -/

theorem PutUint16_length (v : Nat) : (PutUint16 v).length = 2 := rfl

theorem grow_of_le (raw : Bytes) (n : Nat) (h : n ≤ raw.length) : grow raw n = raw := by
  unfold grow
  rw [if_pos h]

theorem grow_of_ge (raw : Bytes) (n : Nat) (h : raw.length ≤ n) :
    grow raw n = raw ++ List.replicate (n - raw.length) 0 := by
  unfold grow
  by_cases h' : raw.length ≥ n
  · have : n - raw.length = 0 := by omega
    rw [if_pos h', this]; simp
  · rw [if_neg h']

theorem copyAt_end (raw src pad : Bytes) (h : pad.length = src.length) :
    copyAt (raw ++ pad) raw.length (raw.length + src.length) src = raw ++ src := by
  have h1 : min (raw.length + src.length - raw.length) src.length = src.length := by
    rw [Nat.add_sub_cancel_left]; exact Nat.min_self _
  have h2 : (raw ++ pad).length ≤ raw.length + src.length := by simp [h]
  simp only [copyAt, h1, List.take_length, List.take_left, List.drop_eq_nil_of_le h2,
    List.append_nil]

theorem WriteLength_Raw (raw : Bytes) (v : Nat) (h : 4 ≤ raw.length) :
    copyAt (grow raw 4) 2 4 (PutUint16 v) = raw.take 2 ++ PutUint16 v ++ raw.drop 4 := by
  rw [grow_of_le raw 4 h]
  rfl

theorem Add_eq (m : Message) (t : Nat) (v : Bytes)
    (hraw : m.Raw.length = 20 + m.Length) (h4 : v.length % 4 = 0)
    (hlen : m.Length + 4 + v.length < 65536) :
    m.Add t v =
      { Typ := m.Typ, Length := m.Length + 4 + v.length, TransactionID := m.TransactionID,
        Attributes := m.Attributes ++ [⟨t, v.length, v⟩],
        Raw := (m.Raw ++ (PutUint16 t ++ PutUint16 v.length ++ v)).take 2 ++
          PutUint16 (m.Length + 4 + v.length) ++
          (m.Raw ++ (PutUint16 t ++ PutUint16 v.length ++ v)).drop 4 } := by
  have hv : v.length % 65536 = v.length := Nat.mod_eq_of_lt (by omega)
  have hpad : ¬ (v.length % 4 ≠ 0) := by omega
  have hL : (m.Length + (4 + v.length)) % 4294967296 = m.Length + 4 + v.length := by omega
  have hL2 : (m.Length + 4 + v.length) % 65536 = m.Length + 4 + v.length := by omega
  have hgrow : (grow m.Raw (20 + m.Length + (4 + v.length))).take (20 + m.Length + (4 + v.length))
      = m.Raw ++ List.replicate (4 + v.length) 0 := by
    rw [grow_of_ge _ _ (by omega)]
    have : 20 + m.Length + (4 + v.length) - m.Raw.length = 4 + v.length := by omega
    rw [this]
    apply List.take_of_length_le
    simp; omega
  have hcopy : copyAt (m.Raw ++ List.replicate (4 + v.length) 0) (20 + m.Length)
      (20 + m.Length + (4 + v.length)) (PutUint16 t ++ PutUint16 v.length ++ v)
      = m.Raw ++ (PutUint16 t ++ PutUint16 v.length ++ v) := by
    have hl : (PutUint16 t ++ PutUint16 v.length ++ v).length = 4 + v.length := by
      simp [PutUint16_length]; omega
    rw [← hraw, ← hl]
    exact copyAt_end _ _ _ (by simp)
  unfold Message.Add
  simp only [attributeHeaderSize, messageHeaderSize, hv, hgrow, hcopy, if_neg hpad, hL,
    Message.WriteLength, hL2]
  rw [WriteLength_Raw _ _ (by simp; omega)]

theorem BindingSuccess_Value : BindingSuccess.Value = 257 := by decide

theorem Build_start : newMessage.Reset.WriteHeader =
    { Typ := ⟨0, 0⟩, Length := 0, TransactionID := List.replicate 12 0, Attributes := [],
      Raw := [0, 0, 0, 0, 33, 18, 164, 66, 0, 0, 0, 0, 0, 0, 0, 0, 0, 0, 0, 0] } := by
  decide

theorem AddTo_transactionID (t0 t1 t2 t3 t4 t5 t6 t7 t8 t9 t10 t11 : Nat) (msg : Message)
    (h : msg.TransactionID = [t0, t1, t2, t3, t4, t5, t6, t7, t8, t9, t10, t11]) :
    msg.AddTo
      { Typ := ⟨0, 0⟩, Length := 0, TransactionID := List.replicate 12 0, Attributes := [],
        Raw := [0, 0, 0, 0, 33, 18, 164, 66, 0, 0, 0, 0, 0, 0, 0, 0, 0, 0, 0, 0] } =
    .ok
      { Typ := ⟨0, 0⟩, Length := 0,
        TransactionID := [t0, t1, t2, t3, t4, t5, t6, t7, t8, t9, t10, t11], Attributes := [],
        Raw := [0, 0, 0, 0, 33, 18, 164, 66, t0, t1, t2, t3, t4, t5, t6, t7, t8, t9, t10, t11] } := by
  simp [Message.AddTo, Message.WriteTransactionID, copyAt, h, messageHeaderSize]

theorem AddTo_BindingSuccess (tid body : Bytes) (x0 x1 : Nat) :
    BindingSuccess.AddTo
      { Typ := ⟨0, 0⟩, Length := 0, TransactionID := tid, Attributes := [],
        Raw := x0 :: x1 :: body } =
    .ok
      { Typ := BindingSuccess, Length := 0, TransactionID := tid, Attributes := [],
        Raw := 1 :: 1 :: body } := by
  simp [MessageType.AddTo, Message.SetType, Message.WriteType, copyAt, grow, BindingSuccess_Value,
    PutUint16]

theorem xorAddTo_v4 (t0 t1 t2 t3 t4 t5 t6 t7 t8 t9 t10 t11 a b c d port : Nat) :
    (XORMappedAddress.mk [a, b, c, d] port).AddTo
      { Typ := BindingSuccess, Length := 0,
        TransactionID := [t0, t1, t2, t3, t4, t5, t6, t7, t8, t9, t10, t11], Attributes := [],
        Raw := [1, 1, 0, 0, 33, 18, 164, 66, t0, t1, t2, t3, t4, t5, t6, t7, t8, t9, t10, t11] } =
    .ok
      { Typ := BindingSuccess, Length := 12,
        TransactionID := [t0, t1, t2, t3, t4, t5, t6, t7, t8, t9, t10, t11],
        Attributes := [⟨0x20, 8, [0, 1, (port ^^^ 8466) % 65536 / 256 % 256,
          (port ^^^ 8466) % 65536 % 256, a ^^^ 33, b ^^^ 18, c ^^^ 164, d ^^^ 66]⟩],
        Raw := [1, 1, 0, 12, 33, 18, 164, 66, t0, t1, t2, t3, t4, t5, t6, t7, t8, t9, t10, t11,
          0, 32, 0, 8, 0, 1, (port ^^^ 8466) % 65536 / 256 % 256,
          (port ^^^ 8466) % 65536 % 256, a ^^^ 33, b ^^^ 18, c ^^^ 164, d ^^^ 66] } := by
  have h16 : ¬ ([a, b, c, d].length = 16) := by simp
  have h4 : ¬ ([a, b, c, d].length ≠ 4) := by simp
  simp only [XORMappedAddress.AddTo, XORMappedAddress.AddToAs, if_neg h16, if_neg h4]
  rw [Add_eq _ _ _ (by simp) (by simp [PutUint16, PutUint32, xorBytes])
    (by simp [PutUint16, PutUint32, xorBytes])]
  simp [PutUint16, PutUint32, xorBytes, magicCookie, familyIPv4, AttrXORMappedAddress]

theorem xorAddTo_mapped (t0 t1 t2 t3 t4 t5 t6 t7 t8 t9 t10 t11 a b c d port : Nat) :
    (XORMappedAddress.mk [0, 0, 0, 0, 0, 0, 0, 0, 0, 0, 255, 255, a, b, c, d] port).AddTo
      { Typ := BindingSuccess, Length := 0,
        TransactionID := [t0, t1, t2, t3, t4, t5, t6, t7, t8, t9, t10, t11], Attributes := [],
        Raw := [1, 1, 0, 0, 33, 18, 164, 66, t0, t1, t2, t3, t4, t5, t6, t7, t8, t9, t10, t11] } =
    .ok
      { Typ := BindingSuccess, Length := 12,
        TransactionID := [t0, t1, t2, t3, t4, t5, t6, t7, t8, t9, t10, t11],
        Attributes := [⟨0x20, 8, [0, 1, (port ^^^ 8466) % 65536 / 256 % 256,
          (port ^^^ 8466) % 65536 % 256, a ^^^ 33, b ^^^ 18, c ^^^ 164, d ^^^ 66]⟩],
        Raw := [1, 1, 0, 12, 33, 18, 164, 66, t0, t1, t2, t3, t4, t5, t6, t7, t8, t9, t10, t11,
          0, 32, 0, 8, 0, 1, (port ^^^ 8466) % 65536 / 256 % 256,
          (port ^^^ 8466) % 65536 % 256, a ^^^ 33, b ^^^ 18, c ^^^ 164, d ^^^ 66] } := by
  have h16 : [0, 0, 0, 0, 0, 0, 0, 0, 0, 0, 255, 255, a, b, c, d].length = 16 := by simp
  have hv4 : isIPv4 [0, 0, 0, 0, 0, 0, 0, 0, 0, 0, 255, 255, a, b, c, d] = true := by
    simp [isIPv4, isZeros, slice]
  have hs : slice [0, 0, 0, 0, 0, 0, 0, 0, 0, 0, 255, 255, a, b, c, d] 12 16 = [a, b, c, d] := by
    simp [slice]
  simp only [XORMappedAddress.AddTo, XORMappedAddress.AddToAs, if_pos h16, if_pos hv4, hs]
  rw [Add_eq _ _ _ (by simp) (by simp [PutUint16, PutUint32, xorBytes])
    (by simp [PutUint16, PutUint32, xorBytes])]
  simp [PutUint16, PutUint32, xorBytes, magicCookie, familyIPv4, AttrXORMappedAddress]

theorem xorAddTo_v6 (t0 t1 t2 t3 t4 t5 t6 t7 t8 t9 t10 t11 port : Nat)
    (i0 i1 i2 i3 i4 i5 i6 i7 i8 i9 i10 i11 i12 i13 i14 i15 : Nat)
    (hv6 : isIPv4 [i0, i1, i2, i3, i4, i5, i6, i7, i8, i9, i10, i11, i12, i13, i14, i15] = false) :
    (XORMappedAddress.mk [i0, i1, i2, i3, i4, i5, i6, i7, i8, i9, i10, i11, i12, i13, i14, i15]
        port).AddTo
      { Typ := BindingSuccess, Length := 0,
        TransactionID := [t0, t1, t2, t3, t4, t5, t6, t7, t8, t9, t10, t11], Attributes := [],
        Raw := [1, 1, 0, 0, 33, 18, 164, 66, t0, t1, t2, t3, t4, t5, t6, t7, t8, t9, t10, t11] } =
    .ok
      { Typ := BindingSuccess, Length := 24,
        TransactionID := [t0, t1, t2, t3, t4, t5, t6, t7, t8, t9, t10, t11],
        Attributes := [⟨0x20, 20, [0, 2, (port ^^^ 8466) % 65536 / 256 % 256,
          (port ^^^ 8466) % 65536 % 256, i0 ^^^ 33, i1 ^^^ 18, i2 ^^^ 164, i3 ^^^ 66,
          i4 ^^^ t0, i5 ^^^ t1, i6 ^^^ t2, i7 ^^^ t3, i8 ^^^ t4, i9 ^^^ t5, i10 ^^^ t6,
          i11 ^^^ t7, i12 ^^^ t8, i13 ^^^ t9, i14 ^^^ t10, i15 ^^^ t11]⟩],
        Raw := [1, 1, 0, 24, 33, 18, 164, 66, t0, t1, t2, t3, t4, t5, t6, t7, t8, t9, t10, t11,
          0, 32, 0, 20, 0, 2, (port ^^^ 8466) % 65536 / 256 % 256,
          (port ^^^ 8466) % 65536 % 256, i0 ^^^ 33, i1 ^^^ 18, i2 ^^^ 164, i3 ^^^ 66,
          i4 ^^^ t0, i5 ^^^ t1, i6 ^^^ t2, i7 ^^^ t3, i8 ^^^ t4, i9 ^^^ t5, i10 ^^^ t6,
          i11 ^^^ t7, i12 ^^^ t8, i13 ^^^ t9, i14 ^^^ t10, i15 ^^^ t11] } := by
  have h16 : [i0, i1, i2, i3, i4, i5, i6, i7, i8, i9, i10, i11, i12, i13, i14, i15].length = 16 := by
    simp
  simp only [XORMappedAddress.AddTo, XORMappedAddress.AddToAs, if_pos h16, hv6,
    Bool.false_eq_true, if_false]
  rw [Add_eq _ _ _ (by simp) (by simp [PutUint16, PutUint32, xorBytes])
    (by simp [PutUint16, PutUint32, xorBytes])]
  simp [PutUint16, PutUint32, xorBytes, magicCookie, familyIPv6, AttrXORMappedAddress]

theorem fingerprintAddTo_eq (tid : Bytes) (attrs : List RawAttribute) (x0 x1 x2 x3 : Nat)
    (body : Bytes) (L : Nat) (h : body.length = 16 + L) (hL : L + 8 < 65536) :
    Fingerprint.AddTo
      { Typ := BindingSuccess, Length := L, TransactionID := tid,
        Attributes := attrs, Raw := x0 :: x1 :: x2 :: x3 :: body } =
    .ok
      { Typ := BindingSuccess, Length := L + 8, TransactionID := tid,
        Attributes := attrs ++
          [⟨0x8028, 4, PutUint32 (FingerprintValue (x0 :: x1 :: PutUint16 (L + 8) ++ body))⟩],
        Raw := x0 :: x1 :: PutUint16 (L + 8) ++ body ++ [128, 40, 0, 4] ++
          PutUint32 (FingerprintValue (x0 :: x1 :: PutUint16 (L + 8) ++ body)) } := by
  have h1 : (L + (4 + 4)) % 4294967296 = L + 8 := by omega
  have h2 : (L + 8) % 65536 = L + 8 := by omega
  simp only [Fingerprint.AddTo, attributeHeaderSize, fingerprintSize, h1, Message.WriteLength, h2]
  rw [WriteLength_Raw _ _ (by simp), Add_eq _ _ _ (by simp [PutUint16_length, h]; omega)
    (by simp [PutUint32]) (by simp [PutUint32]; omega)]
  simp [PutUint16, PutUint32, AttrFingerprint]

theorem Build_chain (msg : Message) (xa : XORMappedAddress) (m3 : Message)
    (t0 t1 t2 t3 t4 t5 t6 t7 t8 t9 t10 t11 : Nat)
    (h : msg.TransactionID = [t0, t1, t2, t3, t4, t5, t6, t7, t8, t9, t10, t11])
    (h3 : xa.AddTo
      { Typ := BindingSuccess, Length := 0,
        TransactionID := [t0, t1, t2, t3, t4, t5, t6, t7, t8, t9, t10, t11], Attributes := [],
        Raw := [1, 1, 0, 0, 33, 18, 164, 66, t0, t1, t2, t3, t4, t5, t6, t7, t8, t9, t10, t11] }
      = .ok m3) :
    Build [msg.AddTo, BindingSuccess.AddTo, xa.AddTo, Fingerprint.AddTo] = Fingerprint.AddTo m3 := by
  simp only [Build, List.foldlM, Build_start,
    AddTo_transactionID t0 t1 t2 t3 t4 t5 t6 t7 t8 t9 t10 t11 msg h, AddTo_BindingSuccess,
    h3, bind, Except.bind, pure, Except.pure]
  cases Fingerprint.AddTo m3 <;> rfl

/-! ## pion/stun : reading the response back -/

theorem Uint32_PutUint32 (v : Nat) (h : v < 4294967296) : Uint32 (PutUint32 v) = v := by
  simp only [Uint32, PutUint32, List.getD_cons_zero, List.getD_cons_succ]
  omega

theorem FingerprintValue_lt (b : Bytes) : FingerprintValue b < 4294967296 := by
  unfold FingerprintValue
  exact Nat.mod_lt _ (by decide)

theorem port_roundtrip (port : Nat) (h : port < 65536) :
    ((port ^^^ 8466) % 65536 / 256 % 256 * 256 + (port ^^^ 8466) % 65536 % 256) ^^^ 8466 = port := by
  have h1 : port ^^^ 8466 < 2 ^ 16 := Nat.xor_lt_two_pow (by simpa using h) (by decide)
  have h2 : (port ^^^ 8466) % 65536 / 256 % 256 * 256 + (port ^^^ 8466) % 65536 % 256
      = port ^^^ 8466 := by
    generalize port ^^^ 8466 = x at h1
    norm_num at h1
    omega
  rw [h2, Nat.xor_assoc, Nat.xor_self, Nat.xor_zero]

theorem xor_cancel (a b : Nat) : a ^^^ b ^^^ b = a := by
  rw [Nat.xor_assoc, Nat.xor_self, Nat.xor_zero]

theorem ReadValue_257 : MessageType.ReadValue 257 = BindingSuccess := by decide

theorem PutUint32_length (v : Nat) : (PutUint32 v).length = 4 := rfl

theorem Decode_respV4 (t0 t1 t2 t3 t4 t5 t6 t7 t8 t9 t10 t11 v0 v1 v2 v3 v4 v5 v6 v7 f : Nat) :
    ({ newMessage with
        Raw := [1, 1, 0, 20, 33, 18, 164, 66, t0, t1, t2, t3, t4, t5, t6, t7, t8, t9, t10, t11,
          0, 32, 0, 8, v0, v1, v2, v3, v4, v5, v6, v7] ++ [128, 40, 0, 4] ++ PutUint32 f } :
      Message).Decode =
    .ok
      { Typ := BindingSuccess, Length := 20,
        TransactionID := [t0, t1, t2, t3, t4, t5, t6, t7, t8, t9, t10, t11],
        Attributes := [⟨0x20, 8, [v0, v1, v2, v3, v4, v5, v6, v7]⟩, ⟨0x8028, 4, PutUint32 f⟩],
        Raw := [1, 1, 0, 20, 33, 18, 164, 66, t0, t1, t2, t3, t4, t5, t6, t7, t8, t9, t10, t11,
          0, 32, 0, 8, v0, v1, v2, v3, v4, v5, v6, v7] ++ [128, 40, 0, 4] ++ PutUint32 f } := by
  simp [Message.Decode, newMessage, PutUint32, messageHeaderSize, slice, Uint16, Uint32,
    magicCookie, decodeAttrs, attributeHeaderSize, compatAttrType, nearestPaddedValueLength,
    AttrXORMappedAddress, ReadValue_257]

theorem Decode_respV6 (t0 t1 t2 t3 t4 t5 t6 t7 t8 t9 t10 t11 v0 v1 v2 v3 v4 v5 v6 v7 v8 v9 v10
      v11 v12 v13 v14 v15 v16 v17 v18 v19 f : Nat) :
    ({ newMessage with
        Raw := [1, 1, 0, 32, 33, 18, 164, 66, t0, t1, t2, t3, t4, t5, t6, t7, t8, t9, t10, t11,
          0, 32, 0, 20, v0, v1, v2, v3, v4, v5, v6, v7, v8, v9, v10, v11, v12, v13, v14, v15,
          v16, v17, v18, v19] ++ [128, 40, 0, 4] ++ PutUint32 f } :
      Message).Decode =
    .ok
      { Typ := BindingSuccess, Length := 32,
        TransactionID := [t0, t1, t2, t3, t4, t5, t6, t7, t8, t9, t10, t11],
        Attributes := [⟨0x20, 20, [v0, v1, v2, v3, v4, v5, v6, v7, v8, v9, v10, v11, v12, v13,
          v14, v15, v16, v17, v18, v19]⟩, ⟨0x8028, 4, PutUint32 f⟩],
        Raw := [1, 1, 0, 32, 33, 18, 164, 66, t0, t1, t2, t3, t4, t5, t6, t7, t8, t9, t10, t11,
          0, 32, 0, 20, v0, v1, v2, v3, v4, v5, v6, v7, v8, v9, v10, v11, v12, v13, v14, v15,
          v16, v17, v18, v19] ++ [128, 40, 0, 4] ++ PutUint32 f } := by
  simp [Message.Decode, newMessage, PutUint32, messageHeaderSize, slice, Uint16, Uint32,
    magicCookie, decodeAttrs, attributeHeaderSize, compatAttrType, nearestPaddedValueLength,
    AttrXORMappedAddress, ReadValue_257]

theorem Check_resp (typ : MessageType) (L : Nat) (tid : Bytes) (a1 : RawAttribute) (pre : Bytes)
    (h1 : a1.Typ = 0x20) :
    Fingerprint.Check
      { Typ := typ, Length := L, TransactionID := tid,
        Attributes := [a1, ⟨0x8028, 4, PutUint32 (FingerprintValue pre)⟩],
        Raw := pre ++ [128, 40, 0, 4] ++ PutUint32 (FingerprintValue pre) } = none := by
  have e : pre.length + 8 - (4 + attributeHeaderSize) = pre.length := by
    simp [attributeHeaderSize]
  simp [Fingerprint.Check, Message.Get, List.find?, h1, AttrFingerprint, fingerprintSize,
    PutUint32_length, Uint32_PutUint32 _ (FingerprintValue_lt pre)]
  rw [e, List.take_left]

theorem GetFrom_respV4 (typ : MessageType) (L : Nat) (t0 t1 t2 t3 t4 t5 t6 t7 t8 t9 t10 t11 : Nat)
    (a b c d port : Nat) (a2 : RawAttribute) (raw : Bytes) (hport : port < 65536) :
    XORMappedAddress.GetFrom
      { Typ := typ, Length := L,
        TransactionID := [t0, t1, t2, t3, t4, t5, t6, t7, t8, t9, t10, t11],
        Attributes := [⟨0x20, 8, [0, 1, (port ^^^ 8466) % 65536 / 256 % 256,
          (port ^^^ 8466) % 65536 % 256, a ^^^ 33, b ^^^ 18, c ^^^ 164, d ^^^ 66]⟩, a2],
        Raw := raw } = .ok ⟨[a, b, c, d], port⟩ := by
  simp [XORMappedAddress.GetFrom, XORMappedAddress.GetFromAs, Message.Get, List.find?,
    AttrXORMappedAddress, slice, Uint16, familyIPv4, familyIPv6, magicCookie, PutUint32,
    xorBytes, xor_cancel, port_roundtrip port hport]

theorem GetFrom_respV6 (typ : MessageType) (L : Nat) (t0 t1 t2 t3 t4 t5 t6 t7 t8 t9 t10 t11 : Nat)
    (i0 i1 i2 i3 i4 i5 i6 i7 i8 i9 i10 i11 i12 i13 i14 i15 port : Nat) (a2 : RawAttribute)
    (raw : Bytes) (hport : port < 65536) :
    XORMappedAddress.GetFrom
      { Typ := typ, Length := L,
        TransactionID := [t0, t1, t2, t3, t4, t5, t6, t7, t8, t9, t10, t11],
        Attributes := [⟨0x20, 20, [0, 2, (port ^^^ 8466) % 65536 / 256 % 256,
          (port ^^^ 8466) % 65536 % 256, i0 ^^^ 33, i1 ^^^ 18, i2 ^^^ 164, i3 ^^^ 66,
          i4 ^^^ t0, i5 ^^^ t1, i6 ^^^ t2, i7 ^^^ t3, i8 ^^^ t4, i9 ^^^ t5, i10 ^^^ t6,
          i11 ^^^ t7, i12 ^^^ t8, i13 ^^^ t9, i14 ^^^ t10, i15 ^^^ t11]⟩, a2],
        Raw := raw } =
      .ok ⟨[i0, i1, i2, i3, i4, i5, i6, i7, i8, i9, i10, i11, i12, i13, i14, i15], port⟩ := by
  simp [XORMappedAddress.GetFrom, XORMappedAddress.GetFromAs, Message.Get, List.find?,
    AttrXORMappedAddress, slice, Uint16, familyIPv4, familyIPv6, magicCookie, PutUint32,
    xorBytes, xor_cancel, port_roundtrip port hport]

theorem exists_cons_of_length {l : Bytes} {n : Nat} (h : l.length = n + 1) :
    ∃ a t, l = a :: t ∧ t.length = n := by
  cases l with
  | nil => simp at h
  | cons a t => exact ⟨a, t, rfl, by simpa using h⟩

theorem exists_of_length_four {l : Bytes} (h : l.length = 4) :
    ∃ a b c d, l = [a, b, c, d] := by
  obtain ⟨a, l1, rfl, h1⟩ := exists_cons_of_length h
  obtain ⟨b, l2, rfl, h2⟩ := exists_cons_of_length h1
  obtain ⟨c, l3, rfl, h3⟩ := exists_cons_of_length h2
  obtain ⟨d, l4, rfl, h4⟩ := exists_cons_of_length h3
  exact ⟨a, b, c, d, by rw [List.length_eq_zero.mp h4]⟩

theorem exists_of_length_twelve {l : Bytes} (h : l.length = 12) :
    ∃ t0 t1 t2 t3 t4 t5 t6 t7 t8 t9 t10 t11,
      l = [t0, t1, t2, t3, t4, t5, t6, t7, t8, t9, t10, t11] := by
  obtain ⟨t0, l1, rfl, h1⟩ := exists_cons_of_length h
  obtain ⟨t1, l2, rfl, h2⟩ := exists_cons_of_length h1
  obtain ⟨t2, l3, rfl, h3⟩ := exists_cons_of_length h2
  obtain ⟨t3, l4, rfl, h4⟩ := exists_cons_of_length h3
  obtain ⟨t4, l5, rfl, h5⟩ := exists_cons_of_length h4
  obtain ⟨t5, l6, rfl, h6⟩ := exists_cons_of_length h5
  obtain ⟨t6, l7, rfl, h7⟩ := exists_cons_of_length h6
  obtain ⟨t7, l8, rfl, h8⟩ := exists_cons_of_length h7
  obtain ⟨t8, t9, t10, t11, rfl⟩ := exists_of_length_four h8
  exact ⟨t0, t1, t2, t3, t4, t5, t6, t7, t8, t9, t10, t11, rfl⟩

theorem exists_of_length_sixteen {l : Bytes} (h : l.length = 16) :
    ∃ i0 i1 i2 i3 i4 i5 i6 i7 i8 i9 i10 i11 i12 i13 i14 i15,
      l = [i0, i1, i2, i3, i4, i5, i6, i7, i8, i9, i10, i11, i12, i13, i14, i15] := by
  obtain ⟨a, l1, rfl, h1⟩ := exists_cons_of_length h
  obtain ⟨b, l2, rfl, h2⟩ := exists_cons_of_length h1
  obtain ⟨c, l3, rfl, h3⟩ := exists_cons_of_length h2
  obtain ⟨d, l4, rfl, h4⟩ := exists_cons_of_length h3
  obtain ⟨t0, t1, t2, t3, t4, t5, t6, t7, t8, t9, t10, t11, rfl⟩ := exists_of_length_twelve h4
  exact ⟨a, b, c, d, t0, t1, t2, t3, t4, t5, t6, t7, t8, t9, t10, t11, rfl⟩

theorem IPEqual_self (ip : Bytes) : IPEqual ip ip = true := by
  simp [IPEqual]

theorem finish_v4 (t0 t1 t2 t3 t4 t5 t6 t7 t8 t9 t10 t11 : Nat) (a b c d port : Nat)
    (ip : Bytes) (hport : port < 65536) (hip : IPEqual [a, b, c, d] ip = true) :
    ∃ resp,
      Fingerprint.AddTo
        { Typ := BindingSuccess, Length := 12,
          TransactionID := [t0, t1, t2, t3, t4, t5, t6, t7, t8, t9, t10, t11],
          Attributes := [⟨0x20, 8, [0, 1, (port ^^^ 8466) % 65536 / 256 % 256,
            (port ^^^ 8466) % 65536 % 256, a ^^^ 33, b ^^^ 18, c ^^^ 164, d ^^^ 66]⟩],
          Raw := [1, 1, 0, 12, 33, 18, 164, 66, t0, t1, t2, t3, t4, t5, t6, t7, t8, t9, t10, t11,
            0, 32, 0, 8, 0, 1, (port ^^^ 8466) % 65536 / 256 % 256,
            (port ^^^ 8466) % 65536 % 256, a ^^^ 33, b ^^^ 18, c ^^^ 164, d ^^^ 66] } = .ok resp ∧
      isBindingSuccessFor resp.Raw [t0, t1, t2, t3, t4, t5, t6, t7, t8, t9, t10, t11] ip port := by
  rw [fingerprintAddTo_eq _ _ _ _ _ _ _ 12 (by simp) (by decide)]
  refine ⟨_, rfl, ?_⟩
  have hraw : (1 :: 1 :: PutUint16 (12 + 8) ++
      [33, 18, 164, 66, t0, t1, t2, t3, t4, t5, t6, t7, t8, t9, t10, t11,
        0, 32, 0, 8, 0, 1, (port ^^^ 8466) % 65536 / 256 % 256,
        (port ^^^ 8466) % 65536 % 256, a ^^^ 33, b ^^^ 18, c ^^^ 164, d ^^^ 66] : Bytes) =
      [1, 1, 0, 20, 33, 18, 164, 66, t0, t1, t2, t3, t4, t5, t6, t7, t8, t9, t10, t11,
        0, 32, 0, 8, 0, 1, (port ^^^ 8466) % 65536 / 256 % 256,
        (port ^^^ 8466) % 65536 % 256, a ^^^ 33, b ^^^ 18, c ^^^ 164, d ^^^ 66] := by
    simp [PutUint16]
  simp only [hraw]
  refine ⟨_, _, Decode_respV4 _ _ _ _ _ _ _ _ _ _ _ _ _ _ _ _ _ _ _ _ _, rfl, rfl, rfl,
    GetFrom_respV4 _ _ _ _ _ _ _ _ _ _ _ _ _ _ _ _ _ _ _ _ _ hport, hip, rfl, ?_⟩
  exact Check_resp _ _ _ _ _ rfl

theorem finish_v6 (t0 t1 t2 t3 t4 t5 t6 t7 t8 t9 t10 t11 : Nat)
    (i0 i1 i2 i3 i4 i5 i6 i7 i8 i9 i10 i11 i12 i13 i14 i15 port : Nat) (hport : port < 65536) :
    ∃ resp,
      Fingerprint.AddTo
        { Typ := BindingSuccess, Length := 24,
          TransactionID := [t0, t1, t2, t3, t4, t5, t6, t7, t8, t9, t10, t11],
          Attributes := [⟨0x20, 20, [0, 2, (port ^^^ 8466) % 65536 / 256 % 256,
            (port ^^^ 8466) % 65536 % 256, i0 ^^^ 33, i1 ^^^ 18, i2 ^^^ 164, i3 ^^^ 66,
            i4 ^^^ t0, i5 ^^^ t1, i6 ^^^ t2, i7 ^^^ t3, i8 ^^^ t4, i9 ^^^ t5, i10 ^^^ t6,
            i11 ^^^ t7, i12 ^^^ t8, i13 ^^^ t9, i14 ^^^ t10, i15 ^^^ t11]⟩],
          Raw := [1, 1, 0, 24, 33, 18, 164, 66, t0, t1, t2, t3, t4, t5, t6, t7, t8, t9, t10, t11,
            0, 32, 0, 20, 0, 2, (port ^^^ 8466) % 65536 / 256 % 256,
            (port ^^^ 8466) % 65536 % 256, i0 ^^^ 33, i1 ^^^ 18, i2 ^^^ 164, i3 ^^^ 66,
            i4 ^^^ t0, i5 ^^^ t1, i6 ^^^ t2, i7 ^^^ t3, i8 ^^^ t4, i9 ^^^ t5, i10 ^^^ t6,
            i11 ^^^ t7, i12 ^^^ t8, i13 ^^^ t9, i14 ^^^ t10, i15 ^^^ t11] } = .ok resp ∧
      isBindingSuccessFor resp.Raw [t0, t1, t2, t3, t4, t5, t6, t7, t8, t9, t10, t11]
        [i0, i1, i2, i3, i4, i5, i6, i7, i8, i9, i10, i11, i12, i13, i14, i15] port := by
  rw [fingerprintAddTo_eq _ _ _ _ _ _ _ 24 (by simp) (by decide)]
  refine ⟨_, rfl, ?_⟩
  have hraw : (1 :: 1 :: PutUint16 (24 + 8) ++
      [33, 18, 164, 66, t0, t1, t2, t3, t4, t5, t6, t7, t8, t9, t10, t11,
        0, 32, 0, 20, 0, 2, (port ^^^ 8466) % 65536 / 256 % 256,
        (port ^^^ 8466) % 65536 % 256, i0 ^^^ 33, i1 ^^^ 18, i2 ^^^ 164, i3 ^^^ 66,
        i4 ^^^ t0, i5 ^^^ t1, i6 ^^^ t2, i7 ^^^ t3, i8 ^^^ t4, i9 ^^^ t5, i10 ^^^ t6,
        i11 ^^^ t7, i12 ^^^ t8, i13 ^^^ t9, i14 ^^^ t10, i15 ^^^ t11] : Bytes) =
      [1, 1, 0, 32, 33, 18, 164, 66, t0, t1, t2, t3, t4, t5, t6, t7, t8, t9, t10, t11,
        0, 32, 0, 20, 0, 2, (port ^^^ 8466) % 65536 / 256 % 256,
        (port ^^^ 8466) % 65536 % 256, i0 ^^^ 33, i1 ^^^ 18, i2 ^^^ 164, i3 ^^^ 66,
        i4 ^^^ t0, i5 ^^^ t1, i6 ^^^ t2, i7 ^^^ t3, i8 ^^^ t4, i9 ^^^ t5, i10 ^^^ t6,
        i11 ^^^ t7, i12 ^^^ t8, i13 ^^^ t9, i14 ^^^ t10, i15 ^^^ t11] := by
    simp [PutUint16]
  simp only [hraw]
  refine ⟨_, _, Decode_respV6 _ _ _ _ _ _ _ _ _ _ _ _ _ _ _ _ _ _ _ _ _ _ _ _ _ _ _ _ _ _ _ _ _,
    rfl, rfl, rfl,
    GetFrom_respV6 _ _ _ _ _ _ _ _ _ _ _ _ _ _ _ _ _ _ _ _ _ _ _ _ _ _ _ _ _ _ _ _ _ hport,
    IPEqual_self _, rfl, ?_⟩
  exact Check_resp _ _ _ _ _ rfl

theorem Fingerprint_AddTo_ok (m : Message) : ∃ resp, Fingerprint.AddTo m = .ok resp :=
  ⟨_, rfl⟩

/-- The response built by `runStunServer` for a request with transaction id of 12 bytes and a
source whose IP has 4 or 16 bytes. -/
theorem Build_response (msg : Message) (ip : Bytes) (port : Nat)
    (htid : msg.TransactionID.length = 12) (hip : ip.length = 4 ∨ ip.length = 16) :
    ∃ resp, Build [msg.AddTo, BindingSuccess.AddTo, (XORMappedAddress.mk ip port).AddTo,
        Fingerprint.AddTo] = .ok resp ∧
      (port < 65536 → isBindingSuccessFor resp.Raw msg.TransactionID ip port) := by
  obtain ⟨t0, t1, t2, t3, t4, t5, t6, t7, t8, t9, t10, t11, ht⟩ := exists_of_length_twelve htid
  rcases hip with h4 | h16
  · obtain ⟨a, b, c, d, rfl⟩ := exists_of_length_four h4
    rw [Build_chain msg _ _ t0 t1 t2 t3 t4 t5 t6 t7 t8 t9 t10 t11 ht (xorAddTo_v4 ..), ht]
    by_cases hport : port < 65536
    · obtain ⟨resp, h1, h2⟩ := finish_v4 t0 t1 t2 t3 t4 t5 t6 t7 t8 t9 t10 t11 a b c d port
        [a, b, c, d] hport (IPEqual_self _)
      exact ⟨resp, h1, fun _ => h2⟩
    · exact ⟨_, rfl, fun h => absurd h hport⟩
  · obtain ⟨i0, i1, i2, i3, i4, i5, i6, i7, i8, i9, i10, i11, i12, i13, i14, i15, rfl⟩ :=
      exists_of_length_sixteen h16
    by_cases hv : isIPv4 [i0, i1, i2, i3, i4, i5, i6, i7, i8, i9, i10, i11, i12, i13, i14, i15]
        = true
    · have hv' := hv
      simp only [isIPv4, isZeros, slice, List.take, List.drop, List.all_cons, List.all_nil,
        List.getD_cons_zero, List.getD_cons_succ, Bool.and_true, Bool.and_eq_true, beq_iff_eq]
        at hv'
      obtain ⟨⟨⟨rfl, rfl, rfl, rfl, rfl, rfl, rfl, rfl, rfl, rfl⟩, rfl⟩, rfl⟩ := hv'
      rw [Build_chain msg _ _ t0 t1 t2 t3 t4 t5 t6 t7 t8 t9 t10 t11 ht (xorAddTo_mapped ..), ht]
      by_cases hport : port < 65536
      · obtain ⟨resp, h1, h2⟩ := finish_v4 t0 t1 t2 t3 t4 t5 t6 t7 t8 t9 t10 t11 i12 i13 i14 i15
          port [0, 0, 0, 0, 0, 0, 0, 0, 0, 0, 255, 255, i12, i13, i14, i15] hport
          (by simp [IPEqual, slice])
        exact ⟨resp, h1, fun _ => h2⟩
      · exact ⟨_, rfl, fun h => absurd h hport⟩
    · have hv6 : isIPv4 [i0, i1, i2, i3, i4, i5, i6, i7, i8, i9, i10, i11, i12, i13, i14, i15]
          = false := by simpa using hv
      rw [Build_chain msg _ _ t0 t1 t2 t3 t4 t5 t6 t7 t8 t9 t10 t11 ht
        (xorAddTo_v6 _ _ _ _ _ _ _ _ _ _ _ _ _ _ _ _ _ _ _ _ _ _ _ _ _ _ _ _ _ hv6), ht]
      by_cases hport : port < 65536
      · obtain ⟨resp, h1, h2⟩ := finish_v6 t0 t1 t2 t3 t4 t5 t6 t7 t8 t9 t10 t11 i0 i1 i2 i3 i4 i5
          i6 i7 i8 i9 i10 i11 i12 i13 i14 i15 port hport
        exact ⟨resp, h1, fun _ => h2⟩
      · exact ⟨_, rfl, fun h => absurd h hport⟩

/-! ## The loop of `runStunServer` -/

theorem Decode_ok_inv (raw : Bytes) (msg : Message)
    (h : ({ newMessage with Raw := raw } : Message).Decode = .ok msg) :
    20 ≤ raw.length ∧ msg.TransactionID = slice raw 8 20 := by
  unfold Message.Decode at h
  simp only [messageHeaderSize] at h
  split_ifs at h with h1 h2 h3
  split at h
  · exact absurd h (by simp)
  · simp only [Except.ok.injEq] at h
    subst h
    exact ⟨by omega, rfl⟩

theorem slice_8_20_length (raw : Bytes) (h : 20 ≤ raw.length) : (slice raw 8 20).length = 12 := by
  simp [slice]; omega

theorem slice_take_1500 (payload : Bytes) :
    slice (payload.take 1500) 8 20 = slice payload 8 20 := by
  simp [slice, List.take_take]

theorem Decode_short (raw : Bytes) (h : raw.length < 20) :
    ({ newMessage with Raw := raw } : Message).Decode = .error ErrUnexpectedHeaderEOF := by
  unfold Message.Decode
  simp only [messageHeaderSize]
  rw [if_pos h]

theorem stunTurn_error (W : Nat → Bytes → Addr → Option GoError) (r : ReadResult)
    (sent : List (Bytes × Addr)) (logs : List StunLog) (run : StunRun)
    (h : stunTurn W r sent logs = .error run) :
    run.sent = sent ∧ run.logs = logs ∧ run.outcome ≠ .blocked := by
  unfold stunTurn at h
  split at h
  · simp only [Except.error.injEq] at h; subst h; simp
  · split at h
    · simp at h
    · split_ifs at h
      split at h
      · simp only [Except.error.injEq] at h; subst h; simp
      · split at h
        · simp only [Except.error.injEq] at h; subst h; simp
        · split at h <;> simp at h

theorem stunLoop_append (W : Nat → Bytes → Addr → Option GoError) :
    ∀ (pre post : List ReadResult) (sent : List (Bytes × Addr)) (logs : List StunLog),
      (stunLoop W pre sent logs).outcome = .blocked →
      stunLoop W (pre ++ post) sent logs =
        stunLoop W post (stunLoop W pre sent logs).sent (stunLoop W pre sent logs).logs := by
  intro pre
  induction pre with
  | nil => intro post sent logs _; rfl
  | cons r pre ih =>
    intro post sent logs h
    simp only [List.cons_append, stunLoop] at h ⊢
    cases hturn : stunTurn W r sent logs with
    | error run =>
      rw [hturn] at h
      exact absurd h (stunTurn_error W r sent logs run hturn).2.2
    | ok st =>
      rw [hturn] at h
      exact ih post st.1 st.2 h

theorem stunTurn_malformed (W : Nat → Bytes → Addr → Option GoError) (payload : Bytes)
    (raddr : Addr) (err : GoError) (sent : List (Bytes × Addr)) (logs : List StunLog)
    (hdec : ({ newMessage with Raw := payload.take 1500 } : Message).Decode = .error err) :
    stunTurn W (.datagram payload raddr) sent logs = .ok (sent, logs ++ [.nonStun raddr err]) := by
  simp only [stunTurn, hdec]

theorem stunTurn_other (W : Nat → Bytes → Addr → Option GoError) (payload : Bytes)
    (raddr : Addr) (msg : Message) (sent : List (Bytes × Addr)) (logs : List StunLog)
    (hdec : ({ newMessage with Raw := payload.take 1500 } : Message).Decode = .ok msg)
    (hnot : msg.Typ.Method ≠ MethodBinding ∨ msg.Typ.Class ≠ ClassRequest) :
    stunTurn W (.datagram payload raddr) sent logs = .ok (sent, logs) := by
  simp only [stunTurn, hdec, if_pos hnot]

theorem stunTurn_request (W : Nat → Bytes → Addr → Option GoError) (payload ip : Bytes)
    (port : Nat) (msg : Message) (sent : List (Bytes × Addr)) (logs : List StunLog)
    (hdec : ({ newMessage with Raw := payload.take 1500 } : Message).Decode = .ok msg)
    (hreq : msg.Typ.Method = MethodBinding ∧ msg.Typ.Class = ClassRequest)
    (hip : ip.length = 4 ∨ ip.length = 16) :
    ∃ resp logs1,
      stunTurn W (.datagram payload (.udp ⟨ip, port⟩)) sent logs =
        .ok (sent ++ [(resp, .udp ⟨ip, port⟩)], logs1) ∧
      (port < 65536 → isBindingSuccessFor resp msg.TransactionID ip port) := by
  have hinv := Decode_ok_inv _ _ hdec
  have htid : msg.TransactionID.length = 12 := by
    rw [hinv.2]; exact slice_8_20_length _ hinv.1
  obtain ⟨resp, hb, hprop⟩ := Build_response msg ip port htid hip
  have hnot : ¬ (msg.Typ.Method ≠ MethodBinding ∨ msg.Typ.Class ≠ ClassRequest) := by
    simp [hreq.1, hreq.2]
  cases hw : W sent.length resp.Raw (.udp ⟨ip, port⟩) with
  | none =>
    exact ⟨resp.Raw, logs, by simp only [stunTurn, hdec, if_neg hnot, hb, hw], hprop⟩
  | some err =>
    exact ⟨resp.Raw, logs ++ [.sendError err],
      by simp only [stunTurn, hdec, if_neg hnot, hb, hw], hprop⟩

theorem stunTurn_datagram_ok (W : Nat → Bytes → Addr → Option GoError) (payload : Bytes)
    (raddr : Addr) (sent : List (Bytes × Addr)) (logs : List StunLog) (h : udpSource raddr) :
    ∃ st, stunTurn W (.datagram payload raddr) sent logs = .ok st := by
  cases hdec : ({ newMessage with Raw := payload.take 1500 } : Message).Decode with
  | error err => exact ⟨_, stunTurn_malformed W payload raddr err sent logs hdec⟩
  | ok msg =>
    by_cases hnot : msg.Typ.Method ≠ MethodBinding ∨ msg.Typ.Class ≠ ClassRequest
    · exact ⟨_, stunTurn_other W payload raddr msg sent logs hdec hnot⟩
    · cases raddr with
      | other n t => exact absurd h (by simp [udpSource])
      | udp u =>
        have hreq : msg.Typ.Method = MethodBinding ∧ msg.Typ.Class = ClassRequest := by
          constructor
          · by_contra hc; exact hnot (Or.inl hc)
          · by_contra hc; exact hnot (Or.inr hc)
        obtain ⟨resp, logs1, hturn, _⟩ :=
          stunTurn_request W payload u.IP u.Port msg sent logs hdec hreq h
        exact ⟨_, hturn⟩

theorem stunLoop_outcome (W : Nat → Bytes → Addr → Option GoError) :
    ∀ (reads : List ReadResult) (sent : List (Bytes × Addr)) (logs : List StunLog),
      udpSources reads →
      (stunLoop W reads sent logs).outcome =
        match firstReadError reads with
        | some err => .returned err
        | none => .blocked := by
  intro reads
  induction reads with
  | nil => intro sent logs _; rfl
  | cons r rest ih =>
    intro sent logs h
    cases r with
    | failed err => rfl
    | datagram payload raddr =>
      obtain ⟨st, hst⟩ := stunTurn_datagram_ok W payload raddr sent logs h.1
      simp only [stunLoop, hst, firstReadError]
      exact ih st.1 st.2 h.2

theorem stunTurn_logs (W : Nat → Bytes → Addr → Option GoError) (r : ReadResult)
    (sent : List (Bytes × Addr)) (logs logs' : List StunLog) :
    (∀ run, stunTurn W r sent logs = .error run →
      ∃ run', stunTurn W r sent logs' = .error run' ∧ run'.sent = run.sent ∧
        run'.outcome = run.outcome) ∧
    (∀ s l, stunTurn W r sent logs = .ok (s, l) →
      ∃ l', stunTurn W r sent logs' = .ok (s, l')) := by
  unfold stunTurn
  split
  · simp
  · split
    · simp
    · split_ifs
      · simp
      · split
        · simp
        · split
          · simp
          · split <;> simp

theorem stunLoop_logs (W : Nat → Bytes → Addr → Option GoError) :
    ∀ (reads : List ReadResult) (sent : List (Bytes × Addr)) (logs logs' : List StunLog),
      (stunLoop W reads sent logs).sent = (stunLoop W reads sent logs').sent ∧
      (stunLoop W reads sent logs).outcome = (stunLoop W reads sent logs').outcome := by
  intro reads
  induction reads with
  | nil => intro sent logs logs'; exact ⟨rfl, rfl⟩
  | cons r rest ih =>
    intro sent logs logs'
    have hl := stunTurn_logs W r sent logs logs'
    simp only [stunLoop]
    cases hturn : stunTurn W r sent logs with
    | error run =>
      obtain ⟨run', h1, h2, h3⟩ := hl.1 run hturn
      rw [h1]
      exact ⟨h2.symm, h3.symm⟩
    | ok st =>
      obtain ⟨l', h1⟩ := hl.2 st.1 st.2 hturn
      rw [h1]
      exact ih st.1 st.2 l'

theorem stunLoop_skip (W : Nat → Bytes → Addr → Option GoError) (d : ReadResult)
    (post : List ReadResult)
    (hd : ∀ sent logs, ∃ logs1, stunTurn W d sent logs = .ok (sent, logs1)) :
    ∀ (pre : List ReadResult) (sent : List (Bytes × Addr)) (logs : List StunLog),
      (stunLoop W (pre ++ d :: post) sent logs).sent = (stunLoop W (pre ++ post) sent logs).sent ∧
      (stunLoop W (pre ++ d :: post) sent logs).outcome =
        (stunLoop W (pre ++ post) sent logs).outcome := by
  intro pre
  induction pre with
  | nil =>
    intro sent logs
    obtain ⟨logs1, h1⟩ := hd sent logs
    simp only [List.nil_append, stunLoop, h1]
    exact stunLoop_logs W post sent logs1 logs
  | cons r pre ih =>
    intro sent logs
    simp only [List.cons_append, stunLoop]
    cases hturn : stunTurn W r sent logs with
    | error run => exact ⟨rfl, rfl⟩
    | ok st => exact ih st.1 st.2

theorem stunLoop_skip_eq (W : Nat → Bytes → Addr → Option GoError) (d : ReadResult)
    (post : List ReadResult)
    (hd : ∀ sent logs, stunTurn W d sent logs = .ok (sent, logs)) :
    ∀ (pre : List ReadResult) (sent : List (Bytes × Addr)) (logs : List StunLog),
      stunLoop W (pre ++ d :: post) sent logs = stunLoop W (pre ++ post) sent logs := by
  intro pre
  induction pre with
  | nil =>
    intro sent logs
    simp only [List.nil_append, stunLoop, hd sent logs]
  | cons r pre ih =>
    intro sent logs
    simp only [List.cons_append, stunLoop]
    cases hturn : stunTurn W r sent logs with
    | error run => rfl
    | ok st => exact ih st.1 st.2

/-! ## The STUN responder -/

/-- C1. A datagram from the UDP source `(ip, port)` that decodes as a Binding Request is
answered by exactly one `WriteTo`: when the run over the earlier results `pre` of `ReadFrom`
has consumed them all, the run over `pre`, the datagram and any later results `post` is the
rest of the loop over `post`, started with the sends of `pre` plus the single entry
`(resp, (ip, port))`; `resp` decodes as a Binding Success whose attributes are an
XOR-MAPPED-ADDRESS reporting `(ip, port)` followed by a FINGERPRINT. -/
theorem bindingRequest_answered_once (conn : PacketConn) (addr : String)
    (pre : List ReadResult) (payload ip : Bytes) (port : Nat) (msg : Message)
    (hpre : (runStunServer (listenOn conn pre) addr).outcome = .blocked)
    (hdec : ({ newMessage with Raw := payload.take 1500 } : Message).Decode = .ok msg)
    (hreq : msg.Typ.Method = MethodBinding ∧ msg.Typ.Class = ClassRequest)
    (hip : ip.length = 4 ∨ ip.length = 16) (hport : port < 65536) :
    ∃ resp logs1,
      (∀ post, runStunServer
          (listenOn conn (pre ++ .datagram payload (.udp ⟨ip, port⟩) :: post)) addr =
        stunLoop conn.WriteTo post
          ((runStunServer (listenOn conn pre) addr).sent ++ [(resp, .udp ⟨ip, port⟩)]) logs1) ∧
      isBindingSuccessFor resp msg.TransactionID ip port := by
  simp only [runStunServer, listenOn] at hpre ⊢
  obtain ⟨resp, logs1, hturn, hprop⟩ := stunTurn_request conn.WriteTo payload ip port msg
    (stunLoop conn.WriteTo pre [] [.listening conn.LocalAddr]).sent
    (stunLoop conn.WriteTo pre [] [.listening conn.LocalAddr]).logs hdec hreq hip
  refine ⟨resp, logs1, ?_, hprop hport⟩
  intro post
  rw [stunLoop_append conn.WriteTo pre _ [] _ hpre]
  simp only [stunLoop, hturn]

/-- C1 at a concrete input: the sample Binding Request from `192.168.1.2:5000`, first
datagram on the socket. -/
theorem bindingRequest_answered_once_witness :
    (runStunServer (listenOn sampleConn []) ":3478").outcome = .blocked ∧
    ({ newMessage with Raw := sampleRequest.take 1500 } : Message).Decode =
      .ok sampleRequestMessage ∧
    (∃ resp logs1,
      (∀ post, runStunServer
          (listenOn sampleConn ([] ++ .datagram sampleRequest (.udp ⟨[192, 168, 1, 2], 5000⟩)
            :: post)) ":3478" =
        stunLoop sampleConn.WriteTo post
          ((runStunServer (listenOn sampleConn []) ":3478").sent ++
            [(resp, .udp ⟨[192, 168, 1, 2], 5000⟩)]) logs1) ∧
      isBindingSuccessFor resp sampleRequestMessage.TransactionID [192, 168, 1, 2] 5000) :=
  ⟨rfl, rfl, bindingRequest_answered_once sampleConn ":3478" [] sampleRequest [192, 168, 1, 2]
    5000 sampleRequestMessage rfl rfl ⟨rfl, rfl⟩ (Or.inl rfl) (by decide)⟩

/-- C2. A datagram whose decoding fails is answered by nothing and does not stop the loop:
with the datagram anywhere among the results of `ReadFrom`, the calls of `WriteTo` and the
way the run ends are those of the run without it. -/
theorem malformed_datagram_ignored (conn : PacketConn) (addr : String)
    (pre post : List ReadResult) (payload : Bytes) (raddr : Addr) (err : GoError)
    (hdec : ({ newMessage with Raw := payload.take 1500 } : Message).Decode = .error err) :
    (runStunServer (listenOn conn (pre ++ .datagram payload raddr :: post)) addr).sent =
      (runStunServer (listenOn conn (pre ++ post)) addr).sent ∧
    (runStunServer (listenOn conn (pre ++ .datagram payload raddr :: post)) addr).outcome =
      (runStunServer (listenOn conn (pre ++ post)) addr).outcome := by
  simp only [runStunServer, listenOn]
  exact stunLoop_skip conn.WriteTo _ post
    (fun sent logs => ⟨_, stunTurn_malformed conn.WriteTo payload raddr err sent logs hdec⟩)
    pre [] _

/-- C2 at a concrete input: 4 bytes that are no STUN message, followed by the sample Binding
Request. -/
theorem malformed_datagram_ignored_witness :
    ({ newMessage with Raw := ([222, 173, 190, 239] : Bytes).take 1500 } : Message).Decode =
      .error ErrUnexpectedHeaderEOF ∧
    (runStunServer (listenOn sampleConn ([] ++ .datagram [222, 173, 190, 239] sampleSource ::
      [.datagram sampleRequest sampleSource])) ":3478").sent =
      (runStunServer (listenOn sampleConn ([] ++ [.datagram sampleRequest sampleSource]))
        ":3478").sent ∧
    (runStunServer (listenOn sampleConn ([] ++ .datagram [222, 173, 190, 239] sampleSource ::
      [.datagram sampleRequest sampleSource])) ":3478").outcome =
      (runStunServer (listenOn sampleConn ([] ++ [.datagram sampleRequest sampleSource]))
        ":3478").outcome :=
  ⟨rfl, malformed_datagram_ignored sampleConn ":3478" [] [.datagram sampleRequest sampleSource]
    [222, 173, 190, 239] sampleSource ErrUnexpectedHeaderEOF rfl⟩

/-- C3. A datagram that decodes as a STUN message other than a Binding Request (another
method, or another class) leaves no trace: the run with it is the run without it, with the
same calls of `WriteTo`, the same log and the same end. -/
theorem non_bindingRequest_ignored (conn : PacketConn) (addr : String)
    (pre post : List ReadResult) (payload : Bytes) (raddr : Addr) (msg : Message)
    (hdec : ({ newMessage with Raw := payload.take 1500 } : Message).Decode = .ok msg)
    (hnot : msg.Typ.Method ≠ MethodBinding ∨ msg.Typ.Class ≠ ClassRequest) :
    runStunServer (listenOn conn (pre ++ .datagram payload raddr :: post)) addr =
      runStunServer (listenOn conn (pre ++ post)) addr := by
  simp only [runStunServer, listenOn]
  exact stunLoop_skip_eq conn.WriteTo _ post
    (fun sent logs => stunTurn_other conn.WriteTo payload raddr msg sent logs hdec hnot) pre [] _

/-- C3 at a concrete input: a Binding Indication between two Binding Requests. -/
theorem non_bindingRequest_ignored_witness :
    ({ newMessage with Raw := sampleIndication.take 1500 } : Message).Decode =
      .ok sampleIndicationMessage ∧
    (sampleIndicationMessage.Typ.Method ≠ MethodBinding ∨
      sampleIndicationMessage.Typ.Class ≠ ClassRequest) ∧
    runStunServer (listenOn sampleConn ([.datagram sampleRequest sampleSource] ++
      .datagram sampleIndication sampleSource :: [.datagram sampleRequest sampleSource]))
      ":3478" =
    runStunServer (listenOn sampleConn ([.datagram sampleRequest sampleSource] ++
      [.datagram sampleRequest sampleSource])) ":3478" :=
  ⟨rfl, Or.inr (by decide),
    non_bindingRequest_ignored sampleConn ":3478" [.datagram sampleRequest sampleSource]
      [.datagram sampleRequest sampleSource] sampleIndication sampleSource
      sampleIndicationMessage rfl (Or.inr (by decide))⟩

/-- C4. The response to a Binding Request carries the transaction id of the request: bytes
8 to 19 of the datagram sent are bytes 8 to 19 of the datagram received, 12 bytes, and they
are the transaction id of the decoded request. -/
theorem response_echoes_transactionID (conn : PacketConn) (addr : String)
    (pre : List ReadResult) (payload ip : Bytes) (port : Nat) (msg : Message)
    (hpre : (runStunServer (listenOn conn pre) addr).outcome = .blocked)
    (hdec : ({ newMessage with Raw := payload.take 1500 } : Message).Decode = .ok msg)
    (hreq : msg.Typ.Method = MethodBinding ∧ msg.Typ.Class = ClassRequest)
    (hip : ip.length = 4 ∨ ip.length = 16) (hport : port < 65536) :
    ∃ resp,
      (runStunServer (listenOn conn (pre ++ [.datagram payload (.udp ⟨ip, port⟩)])) addr).sent =
        (runStunServer (listenOn conn pre) addr).sent ++ [(resp, .udp ⟨ip, port⟩)] ∧
      slice resp 8 20 = slice payload 8 20 ∧ (slice payload 8 20).length = 12 ∧
      slice payload 8 20 = msg.TransactionID := by
  simp only [runStunServer, listenOn] at hpre ⊢
  obtain ⟨resp, logs1, hturn, hprop⟩ := stunTurn_request conn.WriteTo payload ip port msg
    (stunLoop conn.WriteTo pre [] [.listening conn.LocalAddr]).sent
    (stunLoop conn.WriteTo pre [] [.listening conn.LocalAddr]).logs hdec hreq hip
  obtain ⟨m, a, hm, _, htid, _⟩ := hprop hport
  have hreqinv := Decode_ok_inv _ _ hdec
  have hrespinv := Decode_ok_inv _ _ hm
  rw [slice_take_1500] at hreqinv
  refine ⟨resp, ?_, ?_, ?_, hreqinv.2.symm⟩
  · rw [stunLoop_append conn.WriteTo pre _ [] _ hpre]
    simp only [stunLoop, hturn]
  · rw [← hrespinv.2, htid, hreqinv.2]
  · rw [← hreqinv.2, hrespinv.2.symm.trans htid |>.symm]
    exact slice_8_20_length _ hrespinv.1

/-- C4 at a concrete input: the sample Binding Request from `192.168.1.2:5000`. -/
theorem response_echoes_transactionID_witness :
    (runStunServer (listenOn sampleConn []) ":3478").outcome = .blocked ∧
    ({ newMessage with Raw := sampleRequest.take 1500 } : Message).Decode =
      .ok sampleRequestMessage ∧
    (∃ resp,
      (runStunServer (listenOn sampleConn
        ([] ++ [.datagram sampleRequest (.udp ⟨[192, 168, 1, 2], 5000⟩)])) ":3478").sent =
        (runStunServer (listenOn sampleConn []) ":3478").sent ++
          [(resp, .udp ⟨[192, 168, 1, 2], 5000⟩)] ∧
      slice resp 8 20 = slice sampleRequest 8 20 ∧ (slice sampleRequest 8 20).length = 12 ∧
      slice sampleRequest 8 20 = sampleRequestMessage.TransactionID) :=
  ⟨rfl, rfl, response_echoes_transactionID sampleConn ":3478" [] sampleRequest [192, 168, 1, 2]
    5000 sampleRequestMessage rfl rfl ⟨rfl, rfl⟩ (Or.inl rfl) (by decide)⟩

/-- C7. Once the socket is open, `runStunServer` returns exactly when a call of `ReadFrom`
fails, and it returns that error: whatever the datagrams are and whether or not the calls of
`WriteTo` fail, the run ends with `returned err` if and only if `err` is the first read error,
and it is blocked in `ReadFrom` when there is none. -/
theorem runStunServer_returns_iff_read_fails
    (ListenPacket : String → String → Except GoError PacketConn) (addr : String)
    (conn : PacketConn) (hlisten : ListenPacket "udp" addr = .ok conn)
    (hsrc : udpSources conn.reads) :
    (∀ err, (runStunServer ListenPacket addr).outcome = .returned err ↔
      firstReadError conn.reads = some err) ∧
    (firstReadError conn.reads = none → (runStunServer ListenPacket addr).outcome = .blocked) := by
  have h := stunLoop_outcome conn.WriteTo conn.reads [] [.listening conn.LocalAddr] hsrc
  simp only [runStunServer, hlisten]
  rw [h]
  cases firstReadError conn.reads with
  | none => simp
  | some e => simp

/-- C7 at a concrete input: on a socket where every `WriteTo` fails, 4 bytes that are no STUN
message, a Binding Indication and a Binding Request are followed by a read error. -/
theorem runStunServer_returns_iff_read_fails_witness :
    udpSources [.datagram [222, 173, 190, 239] sampleSource,
      .datagram sampleIndication sampleSource, .datagram sampleRequest sampleSource,
      .failed "use of closed network connection"] ∧
    ((∀ err, (runStunServer (listenOn brokenConn [.datagram [222, 173, 190, 239] sampleSource,
        .datagram sampleIndication sampleSource, .datagram sampleRequest sampleSource,
        .failed "use of closed network connection"]) ":3478").outcome = .returned err ↔
      firstReadError [.datagram [222, 173, 190, 239] sampleSource,
        .datagram sampleIndication sampleSource, .datagram sampleRequest sampleSource,
        .failed "use of closed network connection"] = some err) ∧
    (firstReadError [.datagram [222, 173, 190, 239] sampleSource,
        .datagram sampleIndication sampleSource, .datagram sampleRequest sampleSource,
        .failed "use of closed network connection"] = none →
      (runStunServer (listenOn brokenConn [.datagram [222, 173, 190, 239] sampleSource,
        .datagram sampleIndication sampleSource, .datagram sampleRequest sampleSource,
        .failed "use of closed network connection"]) ":3478").outcome = .blocked)) :=
  ⟨by simp [udpSources, udpSource, sampleSource],
    runStunServer_returns_iff_read_fails
      (listenOn brokenConn [.datagram [222, 173, 190, 239] sampleSource,
        .datagram sampleIndication sampleSource, .datagram sampleRequest sampleSource,
        .failed "use of closed network connection"]) ":3478"
      { brokenConn with reads := [.datagram [222, 173, 190, 239] sampleSource,
        .datagram sampleIndication sampleSource, .datagram sampleRequest sampleSource,
        .failed "use of closed network connection"] } rfl
      (by simp [udpSources, udpSource, sampleSource])⟩

/-! ## The ICE credential token -/

theorem encodeChar_ne_newline {i : Nat} (h : i < 64) : encodeChar i ≠ 10 ∧ encodeChar i ≠ 13 :=
  (encodeChar_facts i h).2.2

theorem EncodeToString_no_newline : ∀ (n : Nat) (s : Bytes), s.length ≤ n →
    ∀ c ∈ EncodeToString s, c ≠ 10 ∧ c ≠ 13 := by
  intro n
  induction n using Nat.strong_induction_on with
  | _ n ih =>
    intro s hn
    match s, hn with
    | [], _ => simp [EncodeToString]
    | [a], _ =>
      intro c hc
      simp only [EncodeToString, StdPadding, List.mem_cons, List.mem_singleton,
        List.not_mem_nil, or_false] at hc
      rcases hc with rfl | rfl | rfl | rfl
      · exact encodeChar_ne_newline (Nat.mod_lt _ (by decide))
      · exact encodeChar_ne_newline (Nat.mod_lt _ (by decide))
      · decide
      · decide
    | [a, b], _ =>
      intro c hc
      simp only [EncodeToString, StdPadding, List.mem_cons, List.mem_singleton,
        List.not_mem_nil, or_false] at hc
      rcases hc with rfl | rfl | rfl | rfl
      · exact encodeChar_ne_newline (Nat.mod_lt _ (by decide))
      · exact encodeChar_ne_newline (Nat.mod_lt _ (by decide))
      · exact encodeChar_ne_newline (Nat.mod_lt _ (by decide))
      · decide
    | a :: b :: c :: rest, hn =>
      intro x hx
      simp only [EncodeToString, List.mem_cons] at hx
      rcases hx with rfl | rfl | rfl | rfl | hx
      · exact encodeChar_ne_newline (Nat.mod_lt _ (by decide))
      · exact encodeChar_ne_newline (Nat.mod_lt _ (by decide))
      · exact encodeChar_ne_newline (Nat.mod_lt _ (by decide))
      · exact encodeChar_ne_newline (Nat.mod_lt _ (by decide))
      · exact ih (n - 1) (by simp at hn; omega) rest (by simp at hn; omega) x hx

theorem DecodeString_EncodeToString (s : Bytes) (hs : isBytes s) :
    DecodeString (EncodeToString s) = .ok s := by
  unfold DecodeString
  have hf : (EncodeToString s).filter (fun c => c ≠ 10 ∧ c ≠ 13) = EncodeToString s := by
    apply List.filter_eq_self.mpr
    intro c hc
    have := EncodeToString_no_newline s.length s (Nat.le_refl _) c hc
    simp [this.1, this.2]
  rw [hf]
  exact decodeQuanta_EncodeToString s.length s (Nat.le_refl _) hs

theorem parseSecret_of_decoded (explode : Bytes → Int → List Bytes) (secret dec : Bytes)
    (hdec : DecodeString secret = .ok dec) :
    parseSecret explode secret =
      match Index dec [58] with
      | none => .indexOutOfRange
      | some m => .creds (dec.take m) (dec.drop (m + 1)) := by
  simp only [parseSecret, hdec, SplitN_colon]
  cases Index dec [58] <;> rfl

theorem parseSecret_offerToken (explode : Bytes → Int → List Bytes) (ufrag pwd : Bytes)
    (hu : isBytes ufrag) (hp : isBytes pwd) (hcolon : 58 ∉ ufrag) :
    parseSecret explode (offerToken ufrag pwd) = .creds ufrag pwd := by
  have hs : isBytes (ufrag ++ [58] ++ pwd) := by
    intro b hb
    simp only [List.mem_append, List.mem_singleton] at hb
    rcases hb with (hb | rfl) | hb
    · exact hu b hb
    · decide
    · exact hp b hb
  unfold offerToken
  rw [parseSecret_of_decoded explode _ _ (DecodeString_EncodeToString _ hs)]
  have hidx : Index (ufrag ++ [58] ++ pwd) [58] = some ufrag.length := by
    rw [List.append_assoc]
    exact Index_single_append 58 pwd ufrag hcolon
  rw [hidx]
  simp

theorem isGeneratedCredential_isBytes (s : Bytes) (h : isGeneratedCredential s) : isBytes s := by
  intro b hb
  have := h b hb
  unfold isAlpha at this
  omega

theorem isGeneratedCredential_no_colon (s : Bytes) (h : isGeneratedCredential s) : 58 ∉ s := by
  intro hmem
  have := h 58 hmem
  unfold isAlpha at this
  omega

/-- C5. For every local ufrag and pwd, that is for every pair of credentials as the agent
generates them, parsing the token that `runIceDemo` prints (base64 of ufrag, a colon, pwd)
the way `runIceDemo` parses a peer's token (base64-decode, then split into at most two parts
at the colon) yields the ufrag as the remote ufrag and the pwd as the remote pwd. -/
theorem token_roundtrip (explode : Bytes → Int → List Bytes) (ufrag pwd : Bytes)
    (hu : isGeneratedCredential ufrag) (hp : isGeneratedCredential pwd) :
    parseSecret explode (offerToken ufrag pwd) = .creds ufrag pwd :=
  parseSecret_offerToken explode ufrag pwd (isGeneratedCredential_isBytes ufrag hu)
    (isGeneratedCredential_isBytes pwd hp) (isGeneratedCredential_no_colon ufrag hu)

/-- C5 at a concrete input: a ufrag of 16 letters and a pwd of 32 letters. -/
theorem token_roundtrip_witness :
    isGeneratedCredential sampleUfrag ∧ isGeneratedCredential samplePwd ∧
    parseSecret (fun _ _ => []) (offerToken sampleUfrag samplePwd) =
      .creds sampleUfrag samplePwd :=
  ⟨by decide, by decide,
    token_roundtrip (fun _ _ => []) sampleUfrag samplePwd (by decide) (by decide)⟩

/-- C9. For a secret that base64-decodes to `dec`, the split of `dec` has a second part
exactly when `dec` contains a colon; without one, reading `parts[1]` is out of range; with
one, the remote ufrag `u` and the remote pwd `p` are the two parts, `u` has no colon, and
`u`, a colon and `p` make up `dec`, so `u` is the text before the first colon and `p` all
that follows it. -/
theorem parseSecret_defined_iff_colon (explode : Bytes → Int → List Bytes) (secret dec : Bytes)
    (hdec : DecodeString secret = .ok dec) :
    (((SplitN explode dec [58] 2)[1]?).isSome ↔ 58 ∈ dec) ∧
    (58 ∉ dec → parseSecret explode secret = .indexOutOfRange) ∧
    (58 ∈ dec → ∃ u p, parseSecret explode secret = .creds u p ∧
      SplitN explode dec [58] 2 = [u, p] ∧ 58 ∉ u ∧ u ++ [58] ++ p = dec) := by
  rw [parseSecret_of_decoded explode secret dec hdec, SplitN_colon]
  cases hidx : Index dec [58] with
  | none =>
    have hno : 58 ∉ dec := (Index_single_none 58 dec).mp hidx
    simp [hno]
  | some m =>
    have hyes : 58 ∈ dec := by
      by_contra hno
      rw [(Index_single_none 58 dec).mpr hno] at hidx
      exact absurd hidx (by simp)
    have hsplit := Index_single_some 58 dec m hidx
    refine ⟨by simp [hyes], fun hno => absurd hyes hno, fun _ => ?_⟩
    exact ⟨dec.take m, dec.drop (m + 1), rfl, rfl, hsplit.1, by simpa using hsplit.2⟩

/-- C9 at a concrete input: the token of the text `a:b:c`. -/
theorem parseSecret_defined_iff_colon_witness :
    DecodeString (offerToken [97] [98, 58, 99]) = .ok [97, 58, 98, 58, 99] ∧
    ((((SplitN (fun _ _ => []) [97, 58, 98, 58, 99] [58] 2)[1]?).isSome ↔
      58 ∈ [97, 58, 98, 58, 99]) ∧
    (58 ∉ [97, 58, 98, 58, 99] →
      parseSecret (fun _ _ => []) (offerToken [97] [98, 58, 99]) = .indexOutOfRange) ∧
    (58 ∈ [97, 58, 98, 58, 99] → ∃ u p,
      parseSecret (fun _ _ => []) (offerToken [97] [98, 58, 99]) = .creds u p ∧
      SplitN (fun _ _ => []) [97, 58, 98, 58, 99] [58] 2 = [u, p] ∧ 58 ∉ u ∧
      u ++ [58] ++ p = [97, 58, 98, 58, 99])) :=
  ⟨rfl, parseSecret_defined_iff_colon (fun _ _ => []) (offerToken [97] [98, 58, 99])
    [97, 58, 98, 58, 99] rfl⟩

/-! ## The connect step of `runIceDemo` -/

/-- C6. The authentication callback of the TURN server returns no key and `false` for every
username other than the configured one, and for the configured username it returns `true`
with the key derived from the configured username, realm and password. -/
theorem AuthHandler_checks_username (GenerateAuthKey : Bytes → Bytes → Bytes → Bytes)
    (realm username password usernameInput realmInput : Bytes) (srcAddr : Addr) :
    (usernameInput ≠ username →
      AuthHandler GenerateAuthKey realm username password usernameInput realmInput srcAddr =
        (none, false)) ∧
    AuthHandler GenerateAuthKey realm username password username realmInput srcAddr =
      (some (GenerateAuthKey username realm password), true) := by
  constructor
  · intro h
    simp [AuthHandler, h]
  · simp [AuthHandler]

/-- C6 at a concrete input: realm `example.org`, user `demo`, password `demo`, and a request
presenting the username `eve`. -/
theorem AuthHandler_checks_username_witness :
    AuthHandler sampleGenerateAuthKey
      [101, 120, 97, 109, 112, 108, 101, 46, 111, 114, 103] [100, 101, 109, 111]
      [100, 101, 109, 111] [101, 118, 101] [101, 120, 97, 109, 112, 108, 101, 46, 111, 114, 103]
      sampleSource = (none, false) ∧
    AuthHandler sampleGenerateAuthKey
      [101, 120, 97, 109, 112, 108, 101, 46, 111, 114, 103] [100, 101, 109, 111]
      [100, 101, 109, 111] [100, 101, 109, 111]
      [101, 120, 97, 109, 112, 108, 101, 46, 111, 114, 103] sampleSource =
      (some (sampleGenerateAuthKey [100, 101, 109, 111]
        [101, 120, 97, 109, 112, 108, 101, 46, 111, 114, 103] [100, 101, 109, 111]), true) :=
  ⟨(AuthHandler_checks_username sampleGenerateAuthKey
      [101, 120, 97, 109, 112, 108, 101, 46, 111, 114, 103] [100, 101, 109, 111]
      [100, 101, 109, 111] [101, 118, 101] [101, 120, 97, 109, 112, 108, 101, 46, 111, 114, 103]
      sampleSource).1 (by decide),
    (AuthHandler_checks_username sampleGenerateAuthKey
      [101, 120, 97, 109, 112, 108, 101, 46, 111, 114, 103] [100, 101, 109, 111]
      [100, 101, 109, 111] [101, 118, 101] [101, 120, 97, 109, 112, 108, 101, 46, 111, 114, 103]
      sampleSource).2⟩

/-- C10. The result of the authentication callback depends on the presented username only:
two calls with the same username return the same key and the same flag whatever the realms
and source addresses presented, and the configured username is accepted with the key of the
configured realm whatever realm is presented. -/
theorem AuthHandler_ignores_realm_and_source (GenerateAuthKey : Bytes → Bytes → Bytes → Bytes)
    (realm username password usernameInput realm1 realm2 : Bytes) (src1 src2 : Addr) :
    AuthHandler GenerateAuthKey realm username password usernameInput realm1 src1 =
      AuthHandler GenerateAuthKey realm username password usernameInput realm2 src2 ∧
    AuthHandler GenerateAuthKey realm username password username realm1 src1 =
      (some (GenerateAuthKey username realm password), true) := by
  constructor
  · rfl
  · simp [AuthHandler]

end PionDemo
